import Mathlib

/-!
# Verification of the rustyban mutation engine

A shallow embedding of the rustyban task-board core (`src/core/card.rs`,
`src/core/column.rs`, `src/core/board.rs`), its command layer
(`src/domain/commands/*.rs`, `src/domain/command.rs`), the command history
(`src/domain/command_history.rs`) and the card selector
(`src/engine/card_selector.rs`), together with theorems settling the
specification claims about them.

Modelling conventions:
* `usize` indices become `Nat`; `saturating_sub` becomes truncated `Nat`
  subtraction.
* A Rust function that can panic (out-of-range `Vec` indexing, `usize`
  underflow on an empty collection) is embedded as an `Option`-valued
  function, `none` meaning the panic.
* A Rust function returning `Result<T, RustybanError>` is embedded with an
  explicit `Except RustybanError` layer, so a fallible-and-panicking
  function returns `Option (Except RustybanError T)`.
* `chrono::DateTime<Local>` is opaque to every operation under study; it is
  embedded as an `Int` timestamp.
* JSON serialization keeps field order and skips `is_selected`
  (`#[serde(skip)]`), so serialized output is embedded structurally as
  `SerializedCard`/`SerializedColumn` values.
-/

namespace Rustyban

/-- Mirror of `Card` (core/card.rs): short description, long description,
creation date, and the `#[serde(skip)]` selection flag. -/
structure Card where
  short_description : String
  long_description : String
  creation_date : Int
  is_selected : Bool
deriving DecidableEq, Repr

namespace Card

/-- `Card::new`: empty long description, not selected. -/
def new (short_description : String) (creation_date : Int) : Card :=
  { short_description := short_description
    long_description := ""
    creation_date := creation_date
    is_selected := false }

/-- `Card::select`. -/
def select (c : Card) : Card := { c with is_selected := true }

/-- `Card::deselect`. -/
def deselect (c : Card) : Card := { c with is_selected := false }

end Card

/-- The persisted form of a card: `is_selected` is `#[serde(skip)]`, so only
the three data fields appear in serialized output. -/
structure SerializedCard where
  short_description : String
  long_description : String
  creation_date : Int
deriving DecidableEq, Repr

/-- Serialization of one card (drops `is_selected`). -/
def Card.serialize (c : Card) : SerializedCard :=
  { short_description := c.short_description
    long_description := c.long_description
    creation_date := c.creation_date }

/-- Mirror of `Column` (core/column.rs). -/
structure Column where
  header : String
  cards : List Card
deriving DecidableEq, Repr

/-- The persisted form of a column. -/
structure SerializedColumn where
  header : String
  cards : List SerializedCard
deriving DecidableEq, Repr

namespace Column

/-- `Column::new`. -/
def new (header : String) (cards : List Card) : Column :=
  { header := header, cards := cards }

/-- Serialization of a column. -/
def serialize (c : Column) : SerializedColumn :=
  { header := c.header, cards := c.cards.map Card.serialize }

/-- `Column::size`. -/
def size (c : Column) : Nat := c.cards.length

/-- `Column::is_empty`. -/
def is_empty (c : Column) : Bool := c.cards.length == 0

/-- `Column::card`: `self.cards.get(i)`. -/
def card (c : Column) (i : Nat) : Option Card := c.cards[i]?

/-- `Column::insert_card`: `self.cards.insert(index, card)`.
`Vec::insert` panics when `index > len`, hence the `none` branch. -/
def insert_card (c : Column) (card : Card) (index : Nat) : Option Column :=
  if index ≤ c.cards.length then
    some { c with cards := c.cards.insertIdx index card }
  else
    none

/-- `Column::remove_card`: no-op returning 0 on an empty column; otherwise
`Vec::remove` (panics when the index is out of range), then the new cursor
index `min(index, new_len - 1)`, or 0 when the column became empty. -/
def remove_card (c : Column) (index : Nat) : Option (Column × Nat) :=
  if c.cards.isEmpty then
    some (c, 0)
  else if index < c.cards.length then
    let cards := c.cards.eraseIdx index
    some ({ c with cards := cards },
      if cards.isEmpty then 0 else min index (cards.length - 1))
  else
    none

/-- `Column::take_card`: remove-and-return when in range, otherwise
`None` with no mutation. Never panics. -/
def take_card (c : Column) (index : Nat) : Option Card × Column :=
  if index < c.cards.length then
    (c.cards[index]?, { c with cards := c.cards.eraseIdx index })
  else
    (none, c)

/-- `Column::select_card`: guarded by `is_empty`; the indexing
`self.cards[card_index]` panics when out of range on a non-empty column. -/
def select_card (c : Column) (card_index : Nat) : Option Column :=
  if c.cards.isEmpty then
    some c
  else if h : card_index < c.cards.length then
    some { c with cards := c.cards.set card_index (c.cards[card_index].select) }
  else
    none

/-- `Column::deselect_card`: same shape as `select_card`. -/
def deselect_card (c : Column) (card_index : Nat) : Option Column :=
  if c.cards.isEmpty then
    some c
  else if h : card_index < c.cards.length then
    some { c with cards := c.cards.set card_index (c.cards[card_index].deselect) }
  else
    none

/-- `Column::update_card`: full replacement, same guard shape. -/
def update_card (c : Column) (card_index : Nat) (card : Card) : Option Column :=
  if c.cards.isEmpty then
    some c
  else if card_index < c.cards.length then
    some { c with cards := c.cards.set card_index card }
  else
    none

/-- `Vec::swap` on the card list; both call sites use in-range indices. -/
def swapCards (l : List Card) (i j : Nat) : List Card :=
  match l[i]?, l[j]? with
  | some a, some b => (l.set i b).set j a
  | _, _ => l

/-- `Column::increase_priority`: swap with the previous card when
`0 < card_index < len`, otherwise a no-op returning the input index. -/
def increase_priority (c : Column) (card_index : Nat) : Column × Nat :=
  if 0 < card_index ∧ card_index < c.cards.length then
    ({ c with cards := swapCards c.cards card_index (card_index - 1) }, card_index - 1)
  else
    (c, card_index)

/-- `Column::decrease_priority`: the guard computes `self.cards.len() - 1`
in `usize`, which underflows on an empty column (panic); otherwise swap with
the next card when `card_index < len - 1`, else a no-op. -/
def decrease_priority (c : Column) (card_index : Nat) : Option (Column × Nat) :=
  if c.cards.isEmpty then
    none
  else if card_index < c.cards.length - 1 then
    some ({ c with cards := swapCards c.cards card_index (card_index + 1) }, card_index + 1)
  else
    some (c, card_index)

end Column

/-- Mirror of `RustybanError` (core/error.rs); the two persistence
variants carry only their display text here. -/
inductive RustybanError where
  | io (message : String)
  | serialization (message : String)
  | boardOperation (message : String)
  | invalidFileFormat (file_name : String)
  | cardOperation (message : String)
  | columnOperation (message : String)
  | indexOutOfBounds (index : Nat) (max : Nat)
  | invalidOperation (message : String)
deriving DecidableEq, Repr

/-- The `thiserror` display strings, as interpolated by `format!("{}", e)`
inside command failure messages. -/
def RustybanError.display : RustybanError → String
  | .io m => "IO error: " ++ m
  | .serialization m => "JSON serialization error: " ++ m
  | .boardOperation m => "Board operation failed: " ++ m
  | .invalidFileFormat f => "Invalid file format: " ++ f
  | .cardOperation m => "Card operation failed: " ++ m
  | .columnOperation m => "Column operation failed: " ++ m
  | .indexOutOfBounds i m =>
      "Index out of bounds: index " ++ toString i ++ ", max " ++ toString m
  | .invalidOperation m => "Invalid operation: " ++ m

/-- Mirror of `Board` (core/board.rs). -/
structure Board where
  columns : List Column
deriving DecidableEq, Repr

namespace Board

/-- `Board::new`: the three default columns. -/
def new : Board :=
  { columns := [Column.new "TODO" [], Column.new "Doing" [], Column.new "Done!" []] }

/-- The serialized JSON content of a board, structurally. -/
def serialize (b : Board) : List SerializedColumn :=
  b.columns.map Column.serialize

/-- `Board::column`: `self.columns.get(index)`. -/
def column (b : Board) (index : Nat) : Option Column := b.columns[index]?

/-- `Board::card`: `self.columns.get(column_index)?.card(card_index)`. -/
def card (b : Board) (column_index card_index : Nat) : Option Card :=
  match b.columns[column_index]? with
  | some col => col.card card_index
  | none => none

/-- `Board::columns_count`. -/
def columns_count (b : Board) : Nat := b.columns.length

/-- `Board::insert_card`: typed `IndexOutOfBounds` when the column index is
out of range (with `max = len.saturating_sub(1)`), then the column-level
insert, whose panic propagates. -/
def insert_card (b : Board) (column_index card_index : Nat) (card : Card) :
    Option (Except RustybanError Board) :=
  if h : column_index < b.columns.length then
    match (b.columns[column_index]).insert_card card card_index with
    | some col => some (.ok { b with columns := b.columns.set column_index col })
    | none => none
  else
    some (.error (.indexOutOfBounds column_index (b.columns.length - 1)))

/-- `Board::remove_card`: column bounds check, then the column-level remove;
returns the pair `(column_index, new_cursor_index)`. -/
def remove_card (b : Board) (column_index card_index : Nat) :
    Option (Except RustybanError (Board × Nat × Nat)) :=
  if h : column_index < b.columns.length then
    match (b.columns[column_index]).remove_card card_index with
    | some (col, idx) =>
        some (.ok ({ b with columns := b.columns.set column_index col }, column_index, idx))
    | none => none
  else
    some (.error (.indexOutOfBounds column_index (b.columns.length - 1)))

/-- `Board::select_card`. -/
def select_card (b : Board) (column_index card_index : Nat) :
    Option (Except RustybanError Board) :=
  if h : column_index < b.columns.length then
    match (b.columns[column_index]).select_card card_index with
    | some col => some (.ok { b with columns := b.columns.set column_index col })
    | none => none
  else
    some (.error (.indexOutOfBounds column_index (b.columns.length - 1)))

/-- `Board::deselect_card`. -/
def deselect_card (b : Board) (column_index card_index : Nat) :
    Option (Except RustybanError Board) :=
  if h : column_index < b.columns.length then
    match (b.columns[column_index]).deselect_card card_index with
    | some col => some (.ok { b with columns := b.columns.set column_index col })
    | none => none
  else
    some (.error (.indexOutOfBounds column_index (b.columns.length - 1)))

/-- `Board::update_card`. -/
def update_card (b : Board) (column_index card_index : Nat) (card : Card) :
    Option (Except RustybanError Board) :=
  if h : column_index < b.columns.length then
    match (b.columns[column_index]).update_card card_index card with
    | some col => some (.ok { b with columns := b.columns.set column_index col })
    | none => none
  else
    some (.error (.indexOutOfBounds column_index (b.columns.length - 1)))

/-- `Board::increase_priority`: indexes `self.columns[column_index]`
without a bounds check — out of range panics. -/
def increase_priority (b : Board) (column_index card_index : Nat) :
    Option (Board × Nat × Nat) :=
  if h : column_index < b.columns.length then
    let r := (b.columns[column_index]).increase_priority card_index
    some ({ b with columns := b.columns.set column_index r.1 }, column_index, r.2)
  else
    none

/-- `Board::decrease_priority`: same unchecked indexing; the column-level
operation itself panics on an empty column. -/
def decrease_priority (b : Board) (column_index card_index : Nat) :
    Option (Board × Nat × Nat) :=
  if h : column_index < b.columns.length then
    match (b.columns[column_index]).decrease_priority card_index with
    | some (col, idx) =>
        some ({ b with columns := b.columns.set column_index col }, column_index, idx)
    | none => none
  else
    none

/-- `Board::mark_card_done`: the boundary test computes
`self.columns.len() - 1` in `usize` (underflow on a board with no columns);
at the boundary the input is returned unchanged; otherwise `take_card` from
`column_index` and insert at index 0 of `column_index + 1`, returning
`(column_index + 1, 0)` whether or not a card was actually taken. -/
def mark_card_done (b : Board) (column_index card_index : Nat) :
    Option (Board × Nat × Nat) :=
  if b.columns.length = 0 then
    none
  else if column_index ≥ b.columns.length - 1 then
    some (b, column_index, card_index)
  else
    match b.columns[column_index]? with
    | none => none
    | some col =>
      match col.take_card card_index with
      | (none, _) => some (b, column_index + 1, 0)
      | (some card, col') =>
        let columns := b.columns.set column_index col'
        match columns[column_index + 1]? with
        | none => none
        | some next =>
          match next.insert_card card 0 with
          | none => none
          | some next' =>
              some ({ b with columns := columns.set (column_index + 1) next' },
                column_index + 1, 0)

/-- `Board::mark_card_undone`: immediate no-op at column 0; otherwise the
unchecked indexing `self.columns[column_index]` (panic when out of range),
`take_card`, and insert at index 0 of `column_index - 1`. -/
def mark_card_undone (b : Board) (column_index card_index : Nat) :
    Option (Board × Nat × Nat) :=
  if column_index = 0 then
    some (b, column_index, card_index)
  else
    match b.columns[column_index]? with
    | none => none
    | some col =>
      match col.take_card card_index with
      | (none, _) => some (b, column_index - 1, 0)
      | (some card, col') =>
        let columns := b.columns.set column_index col'
        match columns[column_index - 1]? with
        | none => none
        | some prev =>
          match prev.insert_card card 0 with
          | none => none
          | some prev' =>
              some ({ b with columns := columns.set (column_index - 1) prev' },
                column_index - 1, 0)

end Board

/-- Mirror of `CommandResult` (domain/command.rs). -/
inductive CommandResult where
  | success
  | successWithMessage (message : String)
  | failure (message : String)
deriving DecidableEq, Repr

/-- `matches!(result, Success | SuccessWithMessage(_))`, the test used by
`CommandHistory`. -/
def CommandResult.isSuccess : CommandResult → Bool
  | .success => true
  | .successWithMessage _ => true
  | .failure _ => false

/-- The outcome of one `execute`/`undo` call of signature
`fn(&mut self, board: &mut Board) -> Result<CommandResult>`:
either a panic, or a propagated `Err` (the state reached by then), or an
`Ok(CommandResult)` with the final state. -/
inductive StepOutcome (σ : Type) where
  | panic
  | thrown (e : RustybanError) (s : σ)
  | ok (r : CommandResult) (s : σ)
deriving DecidableEq, Repr

/-- Relabel the state of an outcome (used to inject per-variant states into
the command sum type). -/
def StepOutcome.map (f : σ → τ) : StepOutcome σ → StepOutcome τ
  | .panic => .panic
  | .thrown e s => .thrown e (f s)
  | .ok r s => .ok r (f s)

/-- `check_already_executed` (domain/commands/command_helpers.rs). -/
def check_already_executed (executed : Bool) : Option CommandResult :=
  if executed then some (.failure "Command already executed") else none

/-- `check_not_executed` (domain/commands/command_helpers.rs). -/
def check_not_executed (executed : Bool) : Option CommandResult :=
  if !executed then some (.failure "Command was not executed") else none

/-- `validate_card_exists` (domain/commands/command_helpers.rs). -/
def validate_card_exists (b : Board) (column_index card_index : Nat) : CommandResult :=
  if (b.card column_index card_index).isNone then
    .failure ("Card not found at column " ++ toString column_index ++
      ", index " ++ toString card_index)
  else
    .success

/-- `validate_card_exists_for_undo` (domain/commands/command_helpers.rs). -/
def validate_card_exists_for_undo (b : Board) (column_index card_index : Nat) :
    CommandResult :=
  if (b.card column_index card_index).isNone then
    .failure ("Card not found at column " ++ toString column_index ++
      ", index " ++ toString card_index ++ " for undo")
  else
    .success

/-- Mirror of `InsertCardCommand` (domain/commands/insert_card.rs). -/
structure InsertCardCommand where
  column_index : Nat
  card_index : Nat
  card : Card
  executed : Bool
deriving DecidableEq, Repr

namespace InsertCardCommand

/-- `InsertCardCommand::new`. -/
def new (column_index card_index : Nat) (card : Card) : InsertCardCommand :=
  { column_index := column_index, card_index := card_index, card := card,
    executed := false }

/-- `InsertCardCommand::execute`: no already-executed guard; the board
insert's `Err` propagates via `?`. -/
def execute (c : InsertCardCommand) (b : Board) :
    StepOutcome (InsertCardCommand × Board) :=
  match b.insert_card c.column_index c.card_index c.card with
  | none => .panic
  | some (.error e) => .thrown e (c, b)
  | some (.ok b') => .ok .success ({ c with executed := true }, b')

/-- `InsertCardCommand::undo`. -/
def undo (c : InsertCardCommand) (b : Board) :
    StepOutcome (InsertCardCommand × Board) :=
  if !c.executed then
    .ok (.failure "Command was not executed") (c, b)
  else
    match b.remove_card c.column_index c.card_index with
    | none => .panic
    | some (.ok (b', _, _)) => .ok .success ({ c with executed := false }, b')
    | some (.error e) =>
        .ok (.failure ("Failed to undo insert: " ++ e.display)) (c, b)

end InsertCardCommand

/-- Mirror of `RemoveCardCommand` (domain/commands/remove_card.rs). -/
structure RemoveCardCommand where
  column_index : Nat
  card_index : Nat
  card : Option Card
  executed : Bool
deriving DecidableEq, Repr

namespace RemoveCardCommand

/-- `RemoveCardCommand::new`. -/
def new (column_index card_index : Nat) : RemoveCardCommand :=
  { column_index := column_index, card_index := card_index, card := none,
    executed := false }

/-- `RemoveCardCommand::execute`. -/
def execute (c : RemoveCardCommand) (b : Board) :
    StepOutcome (RemoveCardCommand × Board) :=
  match check_already_executed c.executed with
  | some r => .ok r (c, b)
  | none =>
    match validate_card_exists b c.column_index c.card_index with
    | .failure msg => .ok (.failure msg) (c, b)
    | _ =>
      match b.card c.column_index c.card_index with
      | none => .panic
      | some card =>
        let c := { c with card := some card }
        match b.remove_card c.column_index c.card_index with
        | none => .panic
        | some (.ok (b', _, _)) => .ok .success ({ c with executed := true }, b')
        | some (.error e) =>
            .ok (.failure ("Failed to remove card: " ++ e.display)) (c, b)

/-- `RemoveCardCommand::undo`. -/
def undo (c : RemoveCardCommand) (b : Board) :
    StepOutcome (RemoveCardCommand × Board) :=
  match check_not_executed c.executed with
  | some r => .ok r (c, b)
  | none =>
    match c.card with
    | none => .ok (.failure "Card data not available for undo") (c, b)
    | some card =>
      match b.insert_card c.column_index c.card_index card with
      | none => .panic
      | some (.ok b') => .ok .success ({ c with executed := false }, b')
      | some (.error e) =>
          .ok (.failure ("Failed to undo remove: " ++ e.display)) (c, b)

end RemoveCardCommand

/-- Mirror of `UpdateCardCommand` (domain/commands/update_card.rs). -/
structure UpdateCardCommand where
  column_index : Nat
  card_index : Nat
  new_card : Card
  old_card : Option Card
  executed : Bool
deriving DecidableEq, Repr

namespace UpdateCardCommand

/-- `UpdateCardCommand::new`. -/
def new (column_index card_index : Nat) (new_card : Card) : UpdateCardCommand :=
  { column_index := column_index, card_index := card_index,
    new_card := new_card, old_card := none, executed := false }

/-- `UpdateCardCommand::execute`. -/
def execute (c : UpdateCardCommand) (b : Board) :
    StepOutcome (UpdateCardCommand × Board) :=
  match check_already_executed c.executed with
  | some r => .ok r (c, b)
  | none =>
    match validate_card_exists b c.column_index c.card_index with
    | .failure msg => .ok (.failure msg) (c, b)
    | _ =>
      match b.card c.column_index c.card_index with
      | none => .panic
      | some old_card =>
        let c := { c with old_card := some old_card }
        match b.update_card c.column_index c.card_index c.new_card with
        | none => .panic
        | some (.ok b') => .ok .success ({ c with executed := true }, b')
        | some (.error e) =>
            .ok (.failure ("Failed to update card: " ++ e.display)) (c, b)

/-- `UpdateCardCommand::undo`. -/
def undo (c : UpdateCardCommand) (b : Board) :
    StepOutcome (UpdateCardCommand × Board) :=
  if !c.executed then
    .ok (.failure "Command was not executed") (c, b)
  else
    match c.old_card with
    | none => .ok (.failure "Old card data not available for undo") (c, b)
    | some old_card =>
      match b.update_card c.column_index c.card_index old_card with
      | none => .panic
      | some (.ok b') => .ok .success ({ c with executed := false }, b')
      | some (.error e) =>
          .ok (.failure ("Failed to undo update: " ++ e.display)) (c, b)

end UpdateCardCommand

/-- Mirror of `ChangePriorityCommand` (domain/commands/change_priority.rs). -/
structure ChangePriorityCommand where
  column_index : Nat
  card_index : Nat
  increase : Bool
  original_card_index : Option Nat
  executed : Bool
deriving DecidableEq, Repr

namespace ChangePriorityCommand

/-- `ChangePriorityCommand::increase`. -/
def increaseNew (column_index card_index : Nat) : ChangePriorityCommand :=
  { column_index := column_index, card_index := card_index, increase := true,
    original_card_index := none, executed := false }

/-- `ChangePriorityCommand::decrease`. -/
def decreaseNew (column_index card_index : Nat) : ChangePriorityCommand :=
  { column_index := column_index, card_index := card_index, increase := false,
    original_card_index := none, executed := false }

/-- `ChangePriorityCommand::execute`. -/
def execute (c : ChangePriorityCommand) (b : Board) :
    StepOutcome (ChangePriorityCommand × Board) :=
  if c.executed then
    .ok (.failure "Command already executed") (c, b)
  else if (b.card c.column_index c.card_index).isNone then
    .ok (.failure ("Card not found at column " ++ toString c.column_index ++
      ", index " ++ toString c.card_index)) (c, b)
  else
    let c := { c with original_card_index := some c.card_index }
    match (if c.increase then b.increase_priority c.column_index c.card_index
           else b.decrease_priority c.column_index c.card_index) with
    | none => .panic
    | some (b', _, new_index) =>
        .ok .success ({ c with card_index := new_index, executed := true }, b')

/-- `ChangePriorityCommand::undo`: re-validates at the tracked position,
then swaps in the opposite direction and restores the original index. -/
def undo (c : ChangePriorityCommand) (b : Board) :
    StepOutcome (ChangePriorityCommand × Board) :=
  if !c.executed then
    .ok (.failure "Command was not executed") (c, b)
  else
    match c.original_card_index with
    | none => .ok (.failure "Original card index not available for undo") (c, b)
    | some original_index =>
      if (b.card c.column_index c.card_index).isNone then
        .ok (.failure ("Card not found at column " ++ toString c.column_index ++
          ", index " ++ toString c.card_index ++ " for undo")) (c, b)
      else
        match (if c.increase then b.decrease_priority c.column_index c.card_index
               else b.increase_priority c.column_index c.card_index) with
        | none => .panic
        | some (b', _, _) =>
            .ok .success ({ c with card_index := original_index, executed := false }, b')

end ChangePriorityCommand

/-- Mirror of `MoveCardCommand` (domain/commands/move_card.rs). -/
structure MoveCardCommand where
  source_column_index : Nat
  source_card_index : Nat
  target_column_index : Nat
  target_card_index : Nat
  actual_target_index : Option Nat
  card : Option Card
  executed : Bool
deriving DecidableEq, Repr

namespace MoveCardCommand

/-- `MoveCardCommand::new`. -/
def new (source_column_index source_card_index
    target_column_index target_card_index : Nat) : MoveCardCommand :=
  { source_column_index := source_column_index
    source_card_index := source_card_index
    target_column_index := target_column_index
    target_card_index := target_card_index
    actual_target_index := none, card := none, executed := false }

/-- `MoveCardCommand::execute`: captures the card, adjusts the nominal
target for same-column forward moves (`saturating_sub`), clamps to the
target column size, then remove + insert, each `Err` propagating via `?`. -/
def execute (c : MoveCardCommand) (b : Board) :
    StepOutcome (MoveCardCommand × Board) :=
  if c.executed then
    .ok (.failure "Command already executed") (c, b)
  else
    match b.card c.source_column_index c.source_card_index with
    | none =>
        .ok (.failure ("Card not found at column " ++
          toString c.source_column_index ++ ", index " ++
          toString c.source_card_index)) (c, b)
    | some card =>
      let c := { c with card := some card }
      let adjusted0 :=
        if c.source_column_index = c.target_column_index ∧
            c.source_card_index < c.target_card_index then
          c.target_card_index - 1
        else
          c.target_card_index
      let column_size :=
        match b.column c.target_column_index with
        | some col => col.size
        | none => 0
      let adjusted :=
        if c.source_column_index = c.target_column_index then
          min adjusted0 (column_size - 1)
        else
          min adjusted0 column_size
      let c := { c with actual_target_index := some adjusted }
      match b.remove_card c.source_column_index c.source_card_index with
      | none => .panic
      | some (.error e) => .thrown e (c, b)
      | some (.ok (b1, _, _)) =>
        match b1.insert_card c.target_column_index adjusted card with
        | none => .panic
        | some (.error e) => .thrown e (c, b1)
        | some (.ok b2) => .ok .success ({ c with executed := true }, b2)

/-- `MoveCardCommand::undo`: remove at the captured actual target, reinsert
at the original source position. -/
def undo (c : MoveCardCommand) (b : Board) :
    StepOutcome (MoveCardCommand × Board) :=
  if !c.executed then
    .ok (.failure "Command was not executed") (c, b)
  else
    match c.card with
    | none => .ok (.failure "Card data not available for undo") (c, b)
    | some card =>
      match c.actual_target_index with
      | none => .ok (.failure "Actual target index not available for undo") (c, b)
      | some actual_target =>
        match b.remove_card c.target_column_index actual_target with
        | none => .panic
        | some (.error e) => .thrown e (c, b)
        | some (.ok (b1, _, _)) =>
          match b1.insert_card c.source_column_index c.source_card_index card with
          | none => .panic
          | some (.error e) => .thrown e (c, b1)
          | some (.ok b2) => .ok .success ({ c with executed := false }, b2)

end MoveCardCommand

/-- Mirror of `MarkCardCommand` (domain/commands/mark_card.rs). -/
structure MarkCardCommand where
  column_index : Nat
  card_index : Nat
  mark_done : Bool
  original_column_index : Option Nat
  original_card_index : Option Nat
  executed : Bool
deriving DecidableEq, Repr

namespace MarkCardCommand

/-- `MarkCardCommand::mark_done`. -/
def markDoneNew (column_index card_index : Nat) : MarkCardCommand :=
  { column_index := column_index, card_index := card_index, mark_done := true,
    original_column_index := none, original_card_index := none, executed := false }

/-- `MarkCardCommand::mark_undone`. -/
def markUndoneNew (column_index card_index : Nat) : MarkCardCommand :=
  { column_index := column_index, card_index := card_index, mark_done := false,
    original_column_index := none, original_card_index := none, executed := false }

/-- `MarkCardCommand::execute`: validates, captures the original position,
performs the mark, and treats an unchanged `(column, index)` return as the
boundary signal. -/
def execute (c : MarkCardCommand) (b : Board) :
    StepOutcome (MarkCardCommand × Board) :=
  match check_already_executed c.executed with
  | some r => .ok r (c, b)
  | none =>
    match validate_card_exists b c.column_index c.card_index with
    | .failure msg => .ok (.failure msg) (c, b)
    | _ =>
      let c := { c with original_column_index := some c.column_index,
                        original_card_index := some c.card_index }
      match (if c.mark_done then b.mark_card_done c.column_index c.card_index
             else b.mark_card_undone c.column_index c.card_index) with
      | none => .panic
      | some (b', new_column, new_card_index) =>
        if new_column = c.column_index ∧ new_card_index = c.card_index then
          .ok (.failure "Cannot mark card done/undone at column boundary") (c, b')
        else
          .ok .success
            ({ c with column_index := new_column, card_index := new_card_index,
                      executed := true }, b')

/-- `MarkCardCommand::undo`: applies the opposite mark and verifies the
result lands on the originally captured position; a mismatch is a Failure
reported after the board has already been mutated. -/
def undo (c : MarkCardCommand) (b : Board) :
    StepOutcome (MarkCardCommand × Board) :=
  match check_not_executed c.executed with
  | some r => .ok r (c, b)
  | none =>
    match c.original_column_index with
    | none => .ok (.failure "Original column index not available for undo") (c, b)
    | some original_column =>
      match c.original_card_index with
      | none => .ok (.failure "Original card index not available for undo") (c, b)
      | some original_card =>
        match validate_card_exists_for_undo b c.column_index c.card_index with
        | .failure msg => .ok (.failure msg) (c, b)
        | _ =>
          match (if c.mark_done then b.mark_card_undone c.column_index c.card_index
                 else b.mark_card_done c.column_index c.card_index) with
          | none => .panic
          | some (b', new_column, new_card_index) =>
            if new_column ≠ original_column ∨ new_card_index ≠ original_card then
              .ok (.failure "Failed to undo mark card operation") (c, b')
            else
              .ok .success
                ({ c with column_index := original_column, card_index := original_card,
                          executed := false }, b')

end MarkCardCommand

/-- The closed set of command variants, as stored (boxed) by the history. -/
inductive Cmd where
  | insert (c : InsertCardCommand)
  | remove (c : RemoveCardCommand)
  | update (c : UpdateCardCommand)
  | changePriority (c : ChangePriorityCommand)
  | moveCard (c : MoveCardCommand)
  | markCard (c : MarkCardCommand)
deriving DecidableEq, Repr

namespace Cmd

/-- Dynamic dispatch of `Command::execute`. -/
def execute : Cmd → Board → StepOutcome (Cmd × Board)
  | .insert c, b => (c.execute b).map (fun s => (.insert s.1, s.2))
  | .remove c, b => (c.execute b).map (fun s => (.remove s.1, s.2))
  | .update c, b => (c.execute b).map (fun s => (.update s.1, s.2))
  | .changePriority c, b => (c.execute b).map (fun s => (.changePriority s.1, s.2))
  | .moveCard c, b => (c.execute b).map (fun s => (.moveCard s.1, s.2))
  | .markCard c, b => (c.execute b).map (fun s => (.markCard s.1, s.2))

/-- Dynamic dispatch of `Command::undo`. -/
def undo : Cmd → Board → StepOutcome (Cmd × Board)
  | .insert c, b => (c.undo b).map (fun s => (.insert s.1, s.2))
  | .remove c, b => (c.undo b).map (fun s => (.remove s.1, s.2))
  | .update c, b => (c.undo b).map (fun s => (.update s.1, s.2))
  | .changePriority c, b => (c.undo b).map (fun s => (.changePriority s.1, s.2))
  | .moveCard c, b => (c.undo b).map (fun s => (.moveCard s.1, s.2))
  | .markCard c, b => (c.undo b).map (fun s => (.markCard s.1, s.2))

end Cmd

/-- `MAX_UNDO_HISTORY` (domain/command_history.rs). -/
def MAX_UNDO_HISTORY : Nat := 50

/-- Mirror of `CommandHistory`: the two `VecDeque` stacks are lists whose
head is the deque front, so `push_back` appends, `pop_back` takes the last
element and `pop_front` drops the head. -/
structure CommandHistory where
  undo_stack : List Cmd
  redo_stack : List Cmd
  max_history : Nat
deriving DecidableEq, Repr

namespace CommandHistory

/-- `CommandHistory::with_max_history`. -/
def with_max_history (max_history : Nat) : CommandHistory :=
  { undo_stack := [], redo_stack := [], max_history := max_history }

/-- `CommandHistory::new`. -/
def newHistory : CommandHistory := with_max_history MAX_UNDO_HISTORY

/-- `CommandHistory::execute_command`: clears the redo stack, runs
`execute` (whose `Err` propagates via `?`, dropping the command), and on a
successful result pushes the command, evicting the oldest entry when at
capacity. -/
def execute_command (h : CommandHistory) (cmd : Cmd) (b : Board) :
    StepOutcome (CommandHistory × Board) :=
  let h := { h with redo_stack := [] }
  match cmd.execute b with
  | .panic => .panic
  | .thrown e (_, b') => .thrown e (h, b')
  | .ok r (cmd', b') =>
    if r.isSuccess then
      let undo_stack :=
        if h.undo_stack.length ≥ h.max_history then h.undo_stack.tail
        else h.undo_stack
      .ok r ({ h with undo_stack := undo_stack ++ [cmd'] }, b')
    else
      .ok r (h, b')

/-- `CommandHistory::undo`: pop the most recent command; on success move it
to the redo stack, on a `Failure` push it back, on a propagated `Err` the
command is dropped. -/
def undo (h : CommandHistory) (b : Board) : StepOutcome (CommandHistory × Board) :=
  match h.undo_stack.getLast? with
  | none => .ok (.failure "Nothing to undo") (h, b)
  | some cmd =>
    let rest := h.undo_stack.dropLast
    match cmd.undo b with
    | .panic => .panic
    | .thrown e (_, b') => .thrown e ({ h with undo_stack := rest }, b')
    | .ok r (cmd', b') =>
      if r.isSuccess then
        .ok r ({ h with undo_stack := rest,
                        redo_stack := h.redo_stack ++ [cmd'] }, b')
      else
        .ok r ({ h with undo_stack := rest ++ [cmd'] }, b')

/-- `CommandHistory::redo`: pop the most recent redo entry; on success move
it to the undo stack with the same eviction rule, on a `Failure` push it
back, on a propagated `Err` the command is dropped. -/
def redo (h : CommandHistory) (b : Board) : StepOutcome (CommandHistory × Board) :=
  match h.redo_stack.getLast? with
  | none => .ok (.failure "Nothing to redo") (h, b)
  | some cmd =>
    let rest := h.redo_stack.dropLast
    match cmd.execute b with
    | .panic => .panic
    | .thrown e (_, b') => .thrown e ({ h with redo_stack := rest }, b')
    | .ok r (cmd', b') =>
      if r.isSuccess then
        let undo_stack :=
          if h.undo_stack.length ≥ h.max_history then h.undo_stack.tail
          else h.undo_stack
        .ok r ({ h with undo_stack := undo_stack ++ [cmd'],
                        redo_stack := rest }, b')
      else
        .ok r ({ h with redo_stack := rest ++ [cmd'] }, b')

/-- `CommandHistory::undo_count`. -/
def undo_count (h : CommandHistory) : Nat := h.undo_stack.length

/-- `CommandHistory::redo_count`. -/
def redo_count (h : CommandHistory) : Nat := h.redo_stack.length

end CommandHistory

/-- Mirror of `CardSelector` (engine/card_selector.rs); the shared
`Rc<RefCell<Board>>` handle becomes an explicit `Board` argument to every
operation that reads it. -/
structure CardSelector where
  selected_column : Nat
  selected_card : Nat
  selection_enabled : Bool
deriving DecidableEq, Repr

namespace CardSelector

/-- `CardSelector::new`. -/
def newSelector : CardSelector :=
  { selected_column := 0, selected_card := 0, selection_enabled := false }

/-- `CardSelector::get_card_index`: clamp a requested card index through
the current column's size (`saturating_sub`), falling back to 0 on an empty
or missing column. -/
def get_card_index (s : CardSelector) (b : Board) (index : Nat) : Nat :=
  match b.column s.selected_column with
  | some column => if column.is_empty then 0 else min index (column.size - 1)
  | none => 0

/-- `CardSelector::next_card_index`. -/
def next_card_index (s : CardSelector) (b : Board) : Nat :=
  s.get_card_index b (s.selected_card + 1)

/-- `CardSelector::prev_card_index`. -/
def prev_card_index (s : CardSelector) (b : Board) : Nat :=
  if s.selected_card = 0 then 0 else s.get_card_index b (s.selected_card - 1)

/-- `CardSelector::next_column_index`: `min(current + 1, count - 1)` where
`count - 1` is a `usize` subtraction that underflows on a board with no
columns. -/
def next_column_index (b : Board) (current_index : Nat) : Option Nat :=
  if b.columns_count = 0 then none
  else some (min (current_index + 1) (b.columns_count - 1))

/-- `CardSelector::prev_column_index`. -/
def prev_column_index (b : Board) (current_index : Nat) : Option Nat :=
  if current_index = 0 then some 0
  else if b.columns_count = 0 then none
  else some (min (current_index - 1) (b.columns_count - 1))

/-- `CardSelector::select`: the first navigation call of any kind only
enables selection; later calls run the closure. Returns the cursor read
back from the possibly-updated state. -/
def select (s : CardSelector) (update_selection : CardSelector → Option CardSelector) :
    Option (CardSelector × Nat × Nat) :=
  if s.selection_enabled then
    match update_selection s with
    | some s' => some (s', s'.selected_column, s'.selected_card)
    | none => none
  else
    let s' := { s with selection_enabled := true }
    some (s', s'.selected_column, s'.selected_card)

/-- `CardSelector::select_next_column`. -/
def select_next_column (s : CardSelector) (b : Board) :
    Option (CardSelector × Nat × Nat) :=
  s.select (fun this =>
    match next_column_index b this.selected_column with
    | none => none
    | some nc =>
      let t := { this with selected_column := nc }
      some { t with selected_card := t.get_card_index b t.selected_card })

/-- `CardSelector::select_prev_column`. -/
def select_prev_column (s : CardSelector) (b : Board) :
    Option (CardSelector × Nat × Nat) :=
  s.select (fun this =>
    match prev_column_index b this.selected_column with
    | none => none
    | some nc =>
      let t := { this with selected_column := nc }
      some { t with selected_card := t.get_card_index b t.selected_card })

/-- `CardSelector::select_next_card`. -/
def select_next_card (s : CardSelector) (b : Board) :
    Option (CardSelector × Nat × Nat) :=
  s.select (fun this => some { this with selected_card := this.next_card_index b })

/-- `CardSelector::select_prev_card`. -/
def select_prev_card (s : CardSelector) (b : Board) :
    Option (CardSelector × Nat × Nat) :=
  s.select (fun this => some { this with selected_card := this.prev_card_index b })

end CardSelector

/-! ### Outcome projections shared by several claims -/

/-- The `CommandResult` of an outcome, when the call returned `Ok`. -/
def StepOutcome.resultOf? : StepOutcome σ → Option CommandResult
  | .ok r _ => some r
  | _ => none

/-- The state reached by an outcome, when the call did not panic. -/
def StepOutcome.stateOf? : StepOutcome σ → Option σ
  | .ok _ s => some s
  | .thrown _ s => some s
  | .panic => none

/-- Chain a second call onto the state of a first outcome, propagating
panics. -/
def StepOutcome.andThen (o : StepOutcome σ) (f : σ → StepOutcome σ) : StepOutcome σ :=
  match o with
  | .panic => .panic
  | .thrown e s => .thrown e s
  | .ok _ s => f s

/-- The serialized board in a command-step state. -/
def boardSerializationOf? (o : StepOutcome (Cmd × Board)) :
    Option (List SerializedColumn) :=
  (o.stateOf?).map (fun s => s.2.serialize)

/-- One call against a `CommandHistory` (the three mutating operations the
application layer can issue). -/
inductive HistoryOp where
  | exec (cmd : Cmd)
  | undoOp
  | redoOp
deriving DecidableEq, Repr

/-- Run a sequence of history operations, threading history and board;
`none` when some call panicked (a propagated `Err` returns normally with
its state, so the run continues). -/
def runHistory : List HistoryOp → CommandHistory × Board → Option (CommandHistory × Board)
  | [], s => some s
  | op :: ops, (h, b) =>
    let out := match op with
      | .exec cmd => h.execute_command cmd b
      | .undoOp => h.undo b
      | .redoOp => h.redo b
    match out.stateOf? with
    | none => none
    | some s => runHistory ops s

/-! ### Concrete instances used by counterexamples and witnesses -/

/-- An executed `MoveCardCommand` whose captured target column (5) does not
exist on a fresh three-column board, so its undo propagates
`Err(IndexOutOfBounds)`. -/
def c4cexCmd : Cmd :=
  .moveCard { MoveCardCommand.new 0 0 5 0 with
    executed := true, card := some (Card.new "c" 0), actual_target_index := some 0 }

/-- A history holding only `c4cexCmd`. -/
def c4cexHistory : CommandHistory :=
  { undo_stack := [c4cexCmd], redo_stack := [], max_history := 50 }

/-- A history holding one never-executed insert command, whose undo fails
with a plain `Failure` and must be pushed back. -/
def c4wHistory : CommandHistory :=
  { undo_stack := [.insert (InsertCardCommand.new 0 0 (Card.new "w" 0))],
    redo_stack := [], max_history := 50 }

/-- A one-column board `[A, B]` for the round-trip counterexample. -/
def c1cexBoard : Board :=
  { columns := [Column.new "TODO" [Card.new "A" 0, Card.new "B" 0]] }

/-- A boundary `ChangePriorityCommand`: increase priority of the card
already at index 0. Its execute succeeds as a no-op, but its undo swaps. -/
def c1cexCmd : Cmd := .changePriority (ChangePriorityCommand.increaseNew 0 0)

/-- A fresh insert command used by the round-trip witness. -/
def c1wCmd : Cmd := .insert (InsertCardCommand.new 0 0 (Card.new "w" 1))

/-- `c1wCmd` after execution. -/
def c1wCmd' : Cmd :=
  .insert { InsertCardCommand.new 0 0 (Card.new "w" 1) with executed := true }

/-- The board produced by executing `c1wCmd` on the default board. -/
def c1wBoard' : Board :=
  Board.mk [Column.new "TODO" [Card.new "w" 1], Column.new "Doing" [],
    Column.new "Done!" []]

/-- A board whose first column is `[X, A]` with an empty second column,
for the mark-card atomicity counterexample. -/
def c2cexBoard : Board :=
  { columns := [Column.new "TODO" [Card.new "X" 0, Card.new "A" 0],
                Column.new "Doing" []] }

/-- `MarkCardCommand::mark_done(0, 1)`: its undo lands the card at index 0
instead of the original index 1, mutating the board and then failing. -/
def c2cexCmd : Cmd := .markCard (MarkCardCommand.markDoneNew 0 1)

/-- An insert command used to drive the history in capacity scenarios. -/
def c8cexCmd : Cmd := .insert (InsertCardCommand.new 0 0 (Card.new "n" 0))

/-- The capacity invariant maintained by `CommandHistory` (for a positive
capacity): the undo stack stays within `N` and the two stacks together hold
at most `N` commands. -/
def historyInv (N : Nat) (h : CommandHistory) : Prop :=
  h.max_history = N ∧ h.undo_count ≤ N ∧ h.undo_count + h.redo_count ≤ N

/-! ### List-level helper lemmas -/

theorem list_set_getElem_self {α : Type} (l : List α) (i : Nat) (h : i < l.length) :
    l.set i l[i] = l := by
  apply List.ext_getElem
  · simp
  · intro n h1 h2
    rw [List.getElem_set]
    split
    · subst n; rfl
    · rfl

theorem list_insertIdx_getElem_eraseIdx {α : Type} :
    ∀ (l : List α) (i : Nat) (h : i < l.length),
      (l.eraseIdx i).insertIdx i l[i] = l
  | _ :: _, 0, _ => rfl
  | _ :: l, i + 1, h => by
    simpa [List.eraseIdx, List.insertIdx_succ_cons] using
      list_insertIdx_getElem_eraseIdx l i (by simpa using h)

theorem swapCards_length (l : List Card) (i j : Nat) :
    (Column.swapCards l i j).length = l.length := by
  unfold Column.swapCards
  split <;> simp

theorem swapCards_getElem? (l : List Card) (i j n : Nat)
    (hi : i < l.length) (hj : j < l.length) :
    (Column.swapCards l i j)[n]? =
      if n = j then some l[i] else if n = i then some l[j] else l[n]? := by
  unfold Column.swapCards
  rw [List.getElem?_eq_getElem hi, List.getElem?_eq_getElem hj]
  by_cases hnj : n = j
  · subst n
    rw [if_pos rfl]
    exact List.getElem?_set_self (by simpa using hj)
  · rw [List.getElem?_set_ne (Ne.symm hnj), if_neg hnj]
    by_cases hni : n = i
    · subst n
      rw [if_pos rfl]
      exact List.getElem?_set_self hi
    · rw [List.getElem?_set_ne (Ne.symm hni), if_neg hni]

theorem swapCards_swapCards (l : List Card) (i j : Nat)
    (hi : i < l.length) (hj : j < l.length) :
    Column.swapCards (Column.swapCards l i j) j i = l := by
  have hi' : i < (Column.swapCards l i j).length := by rw [swapCards_length]; exact hi
  have hj' : j < (Column.swapCards l i j).length := by rw [swapCards_length]; exact hj
  have h1 : (Column.swapCards l i j)[j] = l[i] := by
    have := swapCards_getElem? l i j j hi hj
    rw [if_pos rfl, List.getElem?_eq_getElem hj'] at this
    exact Option.some.inj this
  have h2 : (Column.swapCards l i j)[i] = l[j] := by
    have := swapCards_getElem? l i j i hi hj
    rw [List.getElem?_eq_getElem hi'] at this
    by_cases hij : i = j
    · rw [if_pos hij] at this
      exact (Option.some.inj this).trans (by subst hij; rfl)
    · rw [if_neg hij, if_pos rfl] at this
      exact Option.some.inj this
  apply List.ext_getElem?
  intro n
  rw [swapCards_getElem? (Column.swapCards l i j) j i n hj' hi', h1, h2]
  by_cases hni : n = i
  · subst n
    rw [if_pos rfl, List.getElem?_eq_getElem hi]
  · by_cases hnj : n = j
    · subst n
      rw [if_neg hni, if_pos rfl, List.getElem?_eq_getElem hj]
    · rw [if_neg hni, if_neg hnj, swapCards_getElem? l i j n hi hj,
        if_neg hnj, if_neg hni]

/-! ### The claims -/

/-- C10: for every board, every non-last column index `ci` and every
`card_index` at or beyond the size of column `ci`, `Board::mark_card_done`
mutates no column yet still returns `(ci + 1, 0)`, a value different from
its input, so the unchanged-return boundary signal does not fire;
symmetrically `Board::mark_card_undone` with `0 < ci` (and `ci` in range)
mutates nothing and returns `(ci - 1, 0)`. -/
theorem C10_out_of_range_mark_mutates_nothing_but_returns_moved :
    ∀ (b : Board) (ci idx : Nat) (col : Column),
      b.columns[ci]? = some col → col.cards.length ≤ idx →
      (ci + 1 < b.columns.length →
        b.mark_card_done ci idx = some (b, ci + 1, 0) ∧ (ci + 1, 0) ≠ (ci, idx)) ∧
      (0 < ci →
        b.mark_card_undone ci idx = some (b, ci - 1, 0) ∧ (ci - 1, 0) ≠ (ci, idx)) := by
  intro b ci idx col hcol hle
  have hci : ci < b.columns.length := by
    by_contra h
    rw [List.getElem?_eq_none (by omega)] at hcol
    exact Option.noConfusion hcol
  constructor
  · intro hlt
    refine ⟨?_, ?_⟩
    · unfold Board.mark_card_done
      rw [if_neg (show ¬ b.columns.length = 0 by omega),
        if_neg (show ¬ ci ≥ b.columns.length - 1 by omega), hcol]
      dsimp only
      unfold Column.take_card
      rw [if_neg (show ¬ idx < col.cards.length by omega)]
    · intro h
      rw [Prod.mk.injEq] at h
      omega
  · intro hpos
    refine ⟨?_, ?_⟩
    · unfold Board.mark_card_undone
      rw [if_neg (show ¬ ci = 0 by omega), hcol]
      dsimp only
      unfold Column.take_card
      rw [if_neg (show ¬ idx < col.cards.length by omega)]
    · intro h
      rw [Prod.mk.injEq] at h
      omega

/-- Witness for C10 at a concrete input: `Board::new`, column 1, index 0
(the "Doing" column is empty, so index 0 is out of range). -/
theorem C10_witness :
    Board.new.mark_card_done 1 0 = some (Board.new, 2, 0) ∧
    Board.new.mark_card_undone 1 0 = some (Board.new, 0, 0) := by
  have h := C10_out_of_range_mark_mutates_nothing_but_returns_moved
    Board.new 1 0 (Column.new "Doing" []) (by decide) (by decide)
  exact ⟨(h.1 (by decide)).1, (h.2 (by decide)).1⟩

/-- C7: `Column::remove_card` on an index in range deletes that card,
shifts the subsequent cards one position left, and returns
`min(idx, new_size - 1)` (0 when the column became empty); removing from an
already-empty column mutates nothing and returns 0. -/
theorem C7_remove_card_cursor_contract (c : Column) (idx : Nat) :
    (c.cards = [] → c.remove_card idx = some (c, 0)) ∧
    (idx < c.cards.length →
      (c.remove_card idx).isSome = true ∧
      ∀ c' r, c.remove_card idx = some (c', r) →
        c'.header = c.header ∧
        c'.cards.length + 1 = c.cards.length ∧
        (∀ j, j < idx → c'.cards[j]? = c.cards[j]?) ∧
        (∀ j, idx ≤ j → c'.cards[j]? = c.cards[j + 1]?) ∧
        r = if c'.cards.length = 0 then 0 else min idx (c'.cards.length - 1)) := by
  constructor
  · intro hnil
    unfold Column.remove_card
    rw [if_pos (by simp [hnil])]
  · intro hlt
    have hcompute : c.remove_card idx =
        some ({ c with cards := c.cards.eraseIdx idx },
          if (c.cards.eraseIdx idx).isEmpty then 0
          else min idx ((c.cards.eraseIdx idx).length - 1)) := by
      unfold Column.remove_card
      rw [if_neg (by simp only [List.isEmpty_iff_length_eq_zero]; omega), if_pos hlt]
    refine ⟨by rw [hcompute]; rfl, ?_⟩
    intro c' r h
    rw [hcompute] at h
    obtain ⟨hc', hr⟩ := Prod.mk.injEq .. ▸ Option.some.inj h
    subst hc'
    have hlen : (c.cards.eraseIdx idx).length + 1 = c.cards.length := by
      rw [List.length_eraseIdx_of_lt hlt]; omega
    refine ⟨rfl, hlen, ?_, ?_, ?_⟩
    · intro j hj
      exact List.getElem?_eraseIdx_of_lt c.cards idx j hj
    · intro j hj
      exact List.getElem?_eraseIdx_of_ge c.cards idx j hj
    · rw [← hr]
      dsimp only
      by_cases hemp : (c.cards.eraseIdx idx).length = 0
      · rw [if_pos (by rwa [List.isEmpty_iff_length_eq_zero]), if_pos hemp]
      · rw [if_neg (by rw [List.isEmpty_iff_length_eq_zero]; exact hemp), if_neg hemp]

theorem mark_card_done_at_boundary (b : Board) (ci idx : Nat)
    (h0 : b.columns.length ≠ 0) (hge : b.columns.length - 1 ≤ ci) :
    b.mark_card_done ci idx = some (b, ci, idx) := by
  unfold Board.mark_card_done
  rw [if_neg h0, if_pos hge]

theorem mark_card_undone_at_zero (b : Board) (idx : Nat) :
    b.mark_card_undone 0 idx = some (b, 0, idx) := by
  unfold Board.mark_card_undone
  rw [if_pos rfl]

/-- C6: `MarkCardCommand::mark_done` on an existing card in the last column
(and `mark_undone` on an existing card in the first column) fails with
"Cannot mark card done/undone at column boundary" and leaves the board —
hence every card's `is_selected` flag — untouched; the underlying
`Board::mark_card_done` returns its input `(col, idx)` unchanged there. -/
theorem C6_boundary_mark_is_rejected_noop :
    ∀ (b : Board) (idx : Nat) (card : Card),
      (0 < b.columns.length →
        b.card (b.columns.length - 1) idx = some card →
        ((MarkCardCommand.markDoneNew (b.columns.length - 1) idx).execute b).resultOf?
            = some (.failure "Cannot mark card done/undone at column boundary") ∧
        ((MarkCardCommand.markDoneNew (b.columns.length - 1) idx).execute b).stateOf?.map
            (fun s => s.2) = some b ∧
        b.mark_card_done (b.columns.length - 1) idx
            = some (b, b.columns.length - 1, idx)) ∧
      (b.card 0 idx = some card →
        ((MarkCardCommand.markUndoneNew 0 idx).execute b).resultOf?
            = some (.failure "Cannot mark card done/undone at column boundary") ∧
        ((MarkCardCommand.markUndoneNew 0 idx).execute b).stateOf?.map
            (fun s => s.2) = some b ∧
        b.mark_card_undone 0 idx = some (b, 0, idx)) := by
  intro b idx card
  constructor
  · intro hlen hcard
    have hmark := mark_card_done_at_boundary b (b.columns.length - 1) idx
      (by omega) (le_refl _)
    have hexec : (MarkCardCommand.markDoneNew (b.columns.length - 1) idx).execute b
        = .ok (.failure "Cannot mark card done/undone at column boundary")
            ({ MarkCardCommand.markDoneNew (b.columns.length - 1) idx with
                original_column_index := some (b.columns.length - 1),
                original_card_index := some idx }, b) := by
      unfold MarkCardCommand.execute
      dsimp only [MarkCardCommand.markDoneNew]
      unfold check_already_executed
      rw [if_neg (by decide)]
      unfold validate_card_exists
      rw [hcard]
      rw [if_neg (by simp)]
      dsimp only
      rw [if_pos (show true = true from rfl), hmark]
      dsimp only
      rw [if_pos (show b.columns.length - 1 = b.columns.length - 1 ∧ idx = idx from ⟨rfl, rfl⟩)]
    rw [hexec]
    exact ⟨rfl, rfl, hmark⟩
  · intro hcard
    have hmark := mark_card_undone_at_zero b idx
    have hexec : (MarkCardCommand.markUndoneNew 0 idx).execute b
        = .ok (.failure "Cannot mark card done/undone at column boundary")
            ({ MarkCardCommand.markUndoneNew 0 idx with
                original_column_index := some 0,
                original_card_index := some idx }, b) := by
      unfold MarkCardCommand.execute
      dsimp only [MarkCardCommand.markUndoneNew]
      unfold check_already_executed
      rw [if_neg (by decide)]
      unfold validate_card_exists
      rw [hcard]
      rw [if_neg (by simp)]
      dsimp only
      rw [if_neg (show ¬ false = true by decide), hmark]
      dsimp only
      rw [if_pos (show (0 : Nat) = 0 ∧ idx = idx from ⟨rfl, rfl⟩)]
    rw [hexec]
    exact ⟨rfl, rfl, hmark⟩

/-- Witness for C6 at a concrete input: a board whose last column holds one
card, and whose first column holds one card. -/
theorem C6_witness :
    ((MarkCardCommand.markDoneNew 1 0).execute
        (Board.mk [Column.new "TODO" [Card.new "a" 0],
                   Column.new "Done!" [Card.new "b" 0]])).resultOf?
      = some (.failure "Cannot mark card done/undone at column boundary") ∧
    ((MarkCardCommand.markUndoneNew 0 0).execute
        (Board.mk [Column.new "TODO" [Card.new "a" 0],
                   Column.new "Done!" [Card.new "b" 0]])).resultOf?
      = some (.failure "Cannot mark card done/undone at column boundary") := by
  have h := C6_boundary_mark_is_rejected_noop
    (Board.mk [Column.new "TODO" [Card.new "a" 0], Column.new "Done!" [Card.new "b" 0]]) 0
  exact ⟨(h (Card.new "b" 0)).1 (by decide) (by decide) |>.1,
         (h (Card.new "a" 0)).2 (by decide) |>.1⟩

/-- C5 counterexample: the Data Model mutators do not all "perform the
operation or return a typed failure": `Board::insert_card` on a fresh board
(empty "TODO" column) with `card_index = 1` reaches `Vec::insert` with an
index past the length and panics. -/
theorem C5_counterexample :
    Board.new.insert_card 0 1 (Card.new "x" 0) = none := rfl

/-- C5 (amended): the Board mutators validate only the column index — out
of range there yields a typed `IndexOutOfBounds` failure for
insert/remove/select/deselect/update but a panic for
increase/decrease_priority — and do not validate the card index:
with the column in range, `insert_card` panics exactly when `card_index`
exceeds the column size; `remove_card`, `select_card`, `deselect_card` and
`update_card` panic exactly when the column is non-empty and `card_index`
is out of range; `decrease_priority` panics exactly on an empty column;
`increase_priority` never panics once the column index is in range; and
`Column::take_card` out of range is a no-op returning `None`. -/
theorem C5_amended_mutator_panic_characterization :
    ∀ (b : Board) (ci idx : Nat) (card : Card),
      (b.columns.length ≤ ci →
        b.insert_card ci idx card
            = some (.error (.indexOutOfBounds ci (b.columns.length - 1))) ∧
        b.remove_card ci idx
            = some (.error (.indexOutOfBounds ci (b.columns.length - 1))) ∧
        b.select_card ci idx
            = some (.error (.indexOutOfBounds ci (b.columns.length - 1))) ∧
        b.deselect_card ci idx
            = some (.error (.indexOutOfBounds ci (b.columns.length - 1))) ∧
        b.update_card ci idx card
            = some (.error (.indexOutOfBounds ci (b.columns.length - 1))) ∧
        b.increase_priority ci idx = none ∧
        b.decrease_priority ci idx = none) ∧
      (∀ col, b.columns[ci]? = some col →
        (b.insert_card ci idx card = none ↔ col.cards.length < idx) ∧
        (b.remove_card ci idx = none ↔ col.cards ≠ [] ∧ col.cards.length ≤ idx) ∧
        (b.select_card ci idx = none ↔ col.cards ≠ [] ∧ col.cards.length ≤ idx) ∧
        (b.deselect_card ci idx = none ↔ col.cards ≠ [] ∧ col.cards.length ≤ idx) ∧
        (b.update_card ci idx card = none ↔ col.cards ≠ [] ∧ col.cards.length ≤ idx) ∧
        (b.decrease_priority ci idx = none ↔ col.cards = []) ∧
        (b.increase_priority ci idx).isSome = true ∧
        (col.cards.length ≤ idx → col.take_card idx = (none, col))) := by
  intro b ci idx card
  constructor
  · intro hge
    have hno : ¬ ci < b.columns.length := by omega
    refine ⟨?_, ?_, ?_, ?_, ?_, ?_, ?_⟩ <;>
      first
        | (unfold Board.insert_card; rw [dif_neg hno])
        | (unfold Board.remove_card; rw [dif_neg hno])
        | (unfold Board.select_card; rw [dif_neg hno])
        | (unfold Board.deselect_card; rw [dif_neg hno])
        | (unfold Board.update_card; rw [dif_neg hno])
        | (unfold Board.increase_priority; rw [dif_neg hno])
        | (unfold Board.decrease_priority; rw [dif_neg hno])
  · intro col hcol
    obtain ⟨hci, hgec⟩ := List.getElem?_eq_some_iff.mp hcol
    have hemp_iff : (col.cards.isEmpty = true) ↔ col.cards = [] := by
      simp [List.isEmpty_iff]
    refine ⟨?_, ?_, ?_, ?_, ?_, ?_, ?_, ?_⟩
    · unfold Board.insert_card
      rw [dif_pos hci]
      simp only [hgec]
      unfold Column.insert_card
      by_cases hc : idx ≤ col.cards.length
      · rw [if_pos hc]
        dsimp only
        exact ⟨fun h => Option.noConfusion h, fun h => absurd hc (by omega)⟩
      · rw [if_neg hc]
        dsimp only
        exact ⟨fun _ => by omega, fun _ => rfl⟩
    · unfold Board.remove_card
      rw [dif_pos hci]
      simp only [hgec]
      unfold Column.remove_card
      by_cases hemp : col.cards.isEmpty
      · rw [if_pos hemp]
        dsimp only
        exact ⟨fun h => Option.noConfusion h,
          fun h => absurd (hemp_iff.mp hemp) h.1⟩
      · rw [if_neg hemp]
        by_cases hlt : idx < col.cards.length
        · rw [if_pos hlt]
          dsimp only
          exact ⟨fun h => Option.noConfusion h, fun h => by omega⟩
        · rw [if_neg hlt]
          dsimp only
          refine ⟨fun _ => ⟨?_, by omega⟩, fun _ => rfl⟩
          intro hnil
          exact hemp (hemp_iff.mpr hnil)
    · unfold Board.select_card
      rw [dif_pos hci]
      simp only [hgec]
      unfold Column.select_card
      by_cases hemp : col.cards.isEmpty
      · rw [if_pos hemp]
        dsimp only
        exact ⟨fun h => Option.noConfusion h,
          fun h => absurd (hemp_iff.mp hemp) h.1⟩
      · rw [if_neg hemp]
        by_cases hlt : idx < col.cards.length
        · rw [dif_pos hlt]
          dsimp only
          exact ⟨fun h => Option.noConfusion h, fun h => by omega⟩
        · rw [dif_neg hlt]
          dsimp only
          refine ⟨fun _ => ⟨?_, by omega⟩, fun _ => rfl⟩
          intro hnil
          exact hemp (hemp_iff.mpr hnil)
    · unfold Board.deselect_card
      rw [dif_pos hci]
      simp only [hgec]
      unfold Column.deselect_card
      by_cases hemp : col.cards.isEmpty
      · rw [if_pos hemp]
        dsimp only
        exact ⟨fun h => Option.noConfusion h,
          fun h => absurd (hemp_iff.mp hemp) h.1⟩
      · rw [if_neg hemp]
        by_cases hlt : idx < col.cards.length
        · rw [dif_pos hlt]
          dsimp only
          exact ⟨fun h => Option.noConfusion h, fun h => by omega⟩
        · rw [dif_neg hlt]
          dsimp only
          refine ⟨fun _ => ⟨?_, by omega⟩, fun _ => rfl⟩
          intro hnil
          exact hemp (hemp_iff.mpr hnil)
    · unfold Board.update_card
      rw [dif_pos hci]
      simp only [hgec]
      unfold Column.update_card
      by_cases hemp : col.cards.isEmpty
      · rw [if_pos hemp]
        dsimp only
        exact ⟨fun h => Option.noConfusion h,
          fun h => absurd (hemp_iff.mp hemp) h.1⟩
      · rw [if_neg hemp]
        by_cases hlt : idx < col.cards.length
        · rw [if_pos hlt]
          dsimp only
          exact ⟨fun h => Option.noConfusion h, fun h => by omega⟩
        · rw [if_neg hlt]
          dsimp only
          refine ⟨fun _ => ⟨?_, by omega⟩, fun _ => rfl⟩
          intro hnil
          exact hemp (hemp_iff.mpr hnil)
    · unfold Board.decrease_priority
      rw [dif_pos hci]
      simp only [hgec]
      unfold Column.decrease_priority
      by_cases hemp : col.cards.isEmpty
      · rw [if_pos hemp]
        exact ⟨fun _ => hemp_iff.mp hemp, fun _ => rfl⟩
      · rw [if_neg hemp]
        by_cases hlt : idx < col.cards.length - 1
        · rw [if_pos hlt]
          dsimp only
          exact ⟨fun h => Option.noConfusion h,
            fun h => absurd h (fun hnil => hemp (hemp_iff.mpr hnil))⟩
        · rw [if_neg hlt]
          dsimp only
          exact ⟨fun h => Option.noConfusion h,
            fun h => absurd h (fun hnil => hemp (hemp_iff.mpr hnil))⟩
    · unfold Board.increase_priority
      rw [dif_pos hci]
      rfl
    · intro hle
      unfold Column.take_card
      rw [if_neg (by omega)]

/-- Witness for C5 at concrete inputs: column index 3 on a fresh board is a
typed failure, and `insert_card` at card index 1 into the empty "TODO"
column is a panic. -/
theorem C5_witness :
    Board.new.insert_card 3 0 (Card.new "w" 0)
        = some (.error (.indexOutOfBounds 3 2)) ∧
    Board.new.insert_card 0 1 (Card.new "w" 0) = none := by
  have h1 := (C5_amended_mutator_panic_characterization
    Board.new 3 0 (Card.new "w" 0)).1 (by decide)
  have h2 := ((C5_amended_mutator_panic_characterization
    Board.new 0 1 (Card.new "w" 0)).2 (Column.new "TODO" []) rfl).1
  exact ⟨h1.1, h2.mpr (by decide)⟩

/-- C3 counterexample: `InsertCardCommand` has no double-execute guard.
Executing the same instance twice on a fresh board succeeds both times
(instead of the claimed Failure) and mutates the board again. -/
theorem C3_counterexample :
    ((((InsertCardCommand.new 0 0 (Card.new "Test card" 0)).execute Board.new).andThen
        (fun s => s.1.execute s.2)).resultOf? = some .success) ∧
    ((((InsertCardCommand.new 0 0 (Card.new "Test card" 0)).execute Board.new).andThen
        (fun s => s.1.execute s.2)).stateOf?.map (fun s => s.2)
      ≠ (((InsertCardCommand.new 0 0 (Card.new "Test card" 0)).execute
          Board.new).stateOf?.map (fun s => s.2))) := by
  constructor
  · rfl
  · decide

/-- C3 (amended): the double-execute guard holds for Remove, Update,
ChangePriority, MoveCard and MarkCard — `execute` on an already-executed
instance is `Failure("Command already executed")` with no mutation — and
the undo-before-execute guard holds for all six variants; but
`InsertCardCommand::execute` ignores the executed flag and re-inserts,
reporting Success whenever the board insert succeeds. -/
theorem C3_amended_execution_state_guards :
    ∀ (b : Board),
      (∀ c : RemoveCardCommand, c.executed = true →
        c.execute b = .ok (.failure "Command already executed") (c, b)) ∧
      (∀ c : UpdateCardCommand, c.executed = true →
        c.execute b = .ok (.failure "Command already executed") (c, b)) ∧
      (∀ c : ChangePriorityCommand, c.executed = true →
        c.execute b = .ok (.failure "Command already executed") (c, b)) ∧
      (∀ c : MoveCardCommand, c.executed = true →
        c.execute b = .ok (.failure "Command already executed") (c, b)) ∧
      (∀ c : MarkCardCommand, c.executed = true →
        c.execute b = .ok (.failure "Command already executed") (c, b)) ∧
      (∀ c : InsertCardCommand, c.executed = false →
        c.undo b = .ok (.failure "Command was not executed") (c, b)) ∧
      (∀ c : RemoveCardCommand, c.executed = false →
        c.undo b = .ok (.failure "Command was not executed") (c, b)) ∧
      (∀ c : UpdateCardCommand, c.executed = false →
        c.undo b = .ok (.failure "Command was not executed") (c, b)) ∧
      (∀ c : ChangePriorityCommand, c.executed = false →
        c.undo b = .ok (.failure "Command was not executed") (c, b)) ∧
      (∀ c : MoveCardCommand, c.executed = false →
        c.undo b = .ok (.failure "Command was not executed") (c, b)) ∧
      (∀ c : MarkCardCommand, c.executed = false →
        c.undo b = .ok (.failure "Command was not executed") (c, b)) ∧
      (∀ (c : InsertCardCommand) (b' : Board), c.executed = true →
        b.insert_card c.column_index c.card_index c.card = some (.ok b') →
        c.execute b = .ok .success ({ c with executed := true }, b')) := by
  intro b
  refine ⟨?_, ?_, ?_, ?_, ?_, ?_, ?_, ?_, ?_, ?_, ?_, ?_⟩
  · intro c h
    unfold RemoveCardCommand.execute check_already_executed
    rw [h]
    rfl
  · intro c h
    unfold UpdateCardCommand.execute check_already_executed
    rw [h]
    rfl
  · intro c h
    unfold ChangePriorityCommand.execute
    rw [h]
    rfl
  · intro c h
    unfold MoveCardCommand.execute
    rw [h]
    rfl
  · intro c h
    unfold MarkCardCommand.execute check_already_executed
    rw [h]
    rfl
  · intro c h
    unfold InsertCardCommand.undo
    rw [h]
    rfl
  · intro c h
    unfold RemoveCardCommand.undo check_not_executed
    rw [h]
    rfl
  · intro c h
    unfold UpdateCardCommand.undo
    rw [h]
    rfl
  · intro c h
    unfold ChangePriorityCommand.undo
    rw [h]
    rfl
  · intro c h
    unfold MoveCardCommand.undo
    rw [h]
    rfl
  · intro c h
    unfold MarkCardCommand.undo check_not_executed
    rw [h]
    rfl
  · intro c b' h hins
    unfold InsertCardCommand.execute
    rw [hins]

/-- Witness for C3 at concrete inputs: an already-executed
`RemoveCardCommand` is rejected, and a never-executed `InsertCardCommand`
undo is rejected, both on a fresh board. -/
theorem C3_witness :
    (RemoveCardCommand.mk 0 0 none true).execute Board.new
        = .ok (.failure "Command already executed")
            (RemoveCardCommand.mk 0 0 none true, Board.new) ∧
    (InsertCardCommand.new 0 0 (Card.new "z" 0)).undo Board.new
        = .ok (.failure "Command was not executed")
            (InsertCardCommand.new 0 0 (Card.new "z" 0), Board.new) := by
  have h := C3_amended_execution_state_guards Board.new
  exact ⟨h.1 (RemoveCardCommand.mk 0 0 none true) rfl,
         h.2.2.2.2.2.1 (InsertCardCommand.new 0 0 (Card.new "z" 0)) rfl⟩

/-- C4 counterexample: a popped command whose undo propagates `Err` (a
`MoveCardCommand` whose captured target column does not exist on the board
passed to `undo`) is dropped from both stacks, so the total number of
retained commands decreases through this failed undo. -/
theorem C4_counterexample :
    c4cexHistory.undo_count + c4cexHistory.redo_count = 1 ∧
    CommandHistory.undo c4cexHistory Board.new
      = .thrown (.indexOutOfBounds 5 2)
          ({ undo_stack := [], redo_stack := [], max_history := 50 }, Board.new) := by
  exact ⟨rfl, rfl⟩

/-- C4 (amended): undo on an empty undo stack is
`Failure("Nothing to undo")` with no other effect, and whenever the popped
command's undo returns an `Ok` result — Success or Failure — the total
number of commands retained across the two stacks is preserved (a Failure
pushes the command back onto `undo_stack`); but when the popped command's
undo propagates a typed error (`Err`), the command is dropped and the total
decreases by one. -/
theorem C4_amended_history_retention :
    ∀ (h : CommandHistory) (b : Board),
      (h.undo_stack = [] →
        h.undo b = .ok (.failure "Nothing to undo") (h, b)) ∧
      (∀ r h' b', h.undo b = .ok r (h', b') →
        h'.undo_count + h'.redo_count = h.undo_count + h.redo_count) ∧
      (∀ e h' b', h.undo b = .thrown e (h', b') →
        h'.undo_count + h'.redo_count + 1 = h.undo_count + h.redo_count) := by
  intro h b
  refine ⟨?_, ?_, ?_⟩
  · intro hnil
    unfold CommandHistory.undo
    rw [hnil]
    rfl
  · intro r h' b' hu
    unfold CommandHistory.undo at hu
    cases hlast : h.undo_stack.getLast? with
    | none =>
      rw [hlast] at hu
      dsimp only at hu
      injection hu with _ h2
      rw [show h' = h from (congrArg Prod.fst h2.symm)]
    | some cmd =>
      have hpos : 0 < h.undo_stack.length := by
        cases hs2 : h.undo_stack with
        | nil => rw [hs2] at hlast; exact Option.noConfusion hlast
        | cons a t => simp
      rw [hlast] at hu
      dsimp only at hu
      cases houtcome : cmd.undo b with
      | panic =>
        rw [houtcome] at hu
        exact StepOutcome.noConfusion hu
      | thrown e s =>
        rw [houtcome] at hu
        exact StepOutcome.noConfusion hu
      | ok r0 s =>
        obtain ⟨cmd', b0⟩ := s
        rw [houtcome] at hu
        dsimp only at hu
        by_cases hs : r0.isSuccess
        · rw [if_pos hs] at hu
          injection hu with _ h2
          have hh :
              h' = { h with undo_stack := h.undo_stack.dropLast, redo_stack := h.redo_stack ++ [cmd'] } :=
            congrArg Prod.fst h2.symm
          rw [hh]
          dsimp only [CommandHistory.undo_count, CommandHistory.redo_count]
          rw [List.length_dropLast, List.length_append]
          dsimp only [List.length_cons, List.length_nil]
          omega
        · rw [if_neg hs] at hu
          injection hu with _ h2
          have hh : h' = { h with undo_stack := h.undo_stack.dropLast ++ [cmd'] } :=
            congrArg Prod.fst h2.symm
          rw [hh]
          dsimp only [CommandHistory.undo_count, CommandHistory.redo_count]
          rw [List.length_append, List.length_dropLast]
          dsimp only [List.length_cons, List.length_nil]
          omega
  · intro e h' b' hu
    unfold CommandHistory.undo at hu
    cases hlast : h.undo_stack.getLast? with
    | none =>
      rw [hlast] at hu
      exact StepOutcome.noConfusion hu
    | some cmd =>
      have hpos : 0 < h.undo_stack.length := by
        cases hs2 : h.undo_stack with
        | nil => rw [hs2] at hlast; exact Option.noConfusion hlast
        | cons a t => simp
      rw [hlast] at hu
      dsimp only at hu
      cases houtcome : cmd.undo b with
      | panic =>
        rw [houtcome] at hu
        exact StepOutcome.noConfusion hu
      | thrown e0 s =>
        obtain ⟨cmd', b0⟩ := s
        rw [houtcome] at hu
        dsimp only at hu
        injection hu with _ h2
        have hh : h' = { h with undo_stack := h.undo_stack.dropLast } :=
          congrArg Prod.fst h2.symm
        rw [hh]
        dsimp only [CommandHistory.undo_count, CommandHistory.redo_count]
        rw [List.length_dropLast]
        omega
      | ok r0 s =>
        obtain ⟨cmd', b0⟩ := s
        rw [houtcome] at hu
        dsimp only at hu
        by_cases hs : r0.isSuccess
        · rw [if_pos hs] at hu
          exact StepOutcome.noConfusion hu
        · rw [if_neg hs] at hu
          exact StepOutcome.noConfusion hu

/-- Witness for C4 at concrete inputs: undoing an empty history, and a
failed undo (never-executed command) that preserves the retained count. -/
theorem C4_witness :
    (CommandHistory.with_max_history 5).undo Board.new
      = .ok (.failure "Nothing to undo") (CommandHistory.with_max_history 5, Board.new) ∧
    c4wHistory.undo_count + c4wHistory.redo_count
      = c4wHistory.undo_count + c4wHistory.redo_count := by
  refine ⟨(C4_amended_history_retention (CommandHistory.with_max_history 5) Board.new).1 rfl, ?_⟩
  exact (C4_amended_history_retention c4wHistory Board.new).2.1
    (.failure "Command was not executed") c4wHistory Board.new rfl

theorem execute_command_preserves_inv (N : Nat) (hN : 1 ≤ N)
    (h : CommandHistory) (cmd : Cmd) (b : Board) (h' : CommandHistory) (b' : Board)
    (hinv : historyInv N h)
    (hstep : (h.execute_command cmd b).stateOf? = some (h', b')) :
    historyInv N h' := by
  obtain ⟨hmax, hu, hsum⟩ := hinv
  have hu2 : h.undo_stack.length ≤ N := hu
  have hsum2 : h.undo_stack.length + h.redo_stack.length ≤ N := hsum
  unfold CommandHistory.execute_command at hstep
  dsimp only at hstep
  cases hout : cmd.execute b with
  | panic =>
    rw [hout] at hstep
    exact Option.noConfusion hstep
  | thrown e s =>
    obtain ⟨cmd0, b0⟩ := s
    rw [hout] at hstep
    dsimp only [StepOutcome.stateOf?] at hstep
    injection hstep with hpair
    have hh : h' = { h with redo_stack := [] } := congrArg Prod.fst hpair.symm
    rw [hh]
    refine ⟨hmax, ?_, ?_⟩ <;>
      (simp only [CommandHistory.undo_count, CommandHistory.redo_count,
        List.length_nil]
       omega)
  | ok r s =>
    obtain ⟨cmd0, b0⟩ := s
    rw [hout] at hstep
    dsimp only at hstep
    by_cases hs : r.isSuccess
    · rw [if_pos hs] at hstep
      dsimp only [StepOutcome.stateOf?] at hstep
      injection hstep with hpair
      have hh :
          h' = { h with
            undo_stack := (if h.undo_stack.length ≥ h.max_history then h.undo_stack.tail else h.undo_stack) ++ [cmd0],
            redo_stack := [] } :=
        congrArg Prod.fst hpair.symm
      rw [hh]
      by_cases hcap : h.undo_stack.length ≥ h.max_history
      · rw [if_pos hcap]
        refine ⟨hmax, ?_, ?_⟩ <;>
          (simp only [CommandHistory.undo_count, CommandHistory.redo_count,
            List.length_append, List.length_tail, List.length_cons, List.length_nil]
           omega)
      · rw [if_neg hcap]
        refine ⟨hmax, ?_, ?_⟩ <;>
          (simp only [CommandHistory.undo_count, CommandHistory.redo_count,
            List.length_append, List.length_cons, List.length_nil]
           omega)
    · rw [if_neg hs] at hstep
      dsimp only [StepOutcome.stateOf?] at hstep
      injection hstep with hpair
      have hh : h' = { h with redo_stack := [] } := congrArg Prod.fst hpair.symm
      rw [hh]
      refine ⟨hmax, ?_, ?_⟩ <;>
        (simp only [CommandHistory.undo_count, CommandHistory.redo_count,
          List.length_nil]
         omega)

theorem undo_preserves_inv (N : Nat) (hN : 1 ≤ N)
    (h : CommandHistory) (b : Board) (h' : CommandHistory) (b' : Board)
    (hinv : historyInv N h)
    (hstep : (h.undo b).stateOf? = some (h', b')) :
    historyInv N h' := by
  obtain ⟨hmax, hu, hsum⟩ := hinv
  have hu2 : h.undo_stack.length ≤ N := hu
  have hsum2 : h.undo_stack.length + h.redo_stack.length ≤ N := hsum
  unfold CommandHistory.undo at hstep
  cases hlast : h.undo_stack.getLast? with
  | none =>
    rw [hlast] at hstep
    dsimp only [StepOutcome.stateOf?] at hstep
    injection hstep with hpair
    have hh : h' = h := congrArg Prod.fst hpair.symm
    rw [hh]
    exact ⟨hmax, hu, hsum⟩
  | some cmd =>
    have hpos : 0 < h.undo_stack.length := by
      cases hs2 : h.undo_stack with
      | nil => rw [hs2] at hlast; exact Option.noConfusion hlast
      | cons a t => simp
    rw [hlast] at hstep
    dsimp only at hstep
    cases hout : cmd.undo b with
    | panic =>
      rw [hout] at hstep
      exact Option.noConfusion hstep
    | thrown e s =>
      obtain ⟨cmd0, b0⟩ := s
      rw [hout] at hstep
      dsimp only [StepOutcome.stateOf?] at hstep
      injection hstep with hpair
      have hh : h' = { h with undo_stack := h.undo_stack.dropLast } :=
        congrArg Prod.fst hpair.symm
      rw [hh]
      refine ⟨hmax, ?_, ?_⟩ <;>
        (simp only [CommandHistory.undo_count, CommandHistory.redo_count,
          List.length_dropLast]
         omega)
    | ok r s =>
      obtain ⟨cmd0, b0⟩ := s
      rw [hout] at hstep
      dsimp only at hstep
      by_cases hs : r.isSuccess
      · rw [if_pos hs] at hstep
        dsimp only [StepOutcome.stateOf?] at hstep
        injection hstep with hpair
        have hh :
            h' = { h with undo_stack := h.undo_stack.dropLast, redo_stack := h.redo_stack ++ [cmd0] } :=
          congrArg Prod.fst hpair.symm
        rw [hh]
        refine ⟨hmax, ?_, ?_⟩ <;>
          (simp only [CommandHistory.undo_count, CommandHistory.redo_count,
            List.length_dropLast, List.length_append, List.length_cons,
            List.length_nil]
           omega)
      · rw [if_neg hs] at hstep
        dsimp only [StepOutcome.stateOf?] at hstep
        injection hstep with hpair
        have hh : h' = { h with undo_stack := h.undo_stack.dropLast ++ [cmd0] } :=
          congrArg Prod.fst hpair.symm
        rw [hh]
        refine ⟨hmax, ?_, ?_⟩ <;>
          (simp only [CommandHistory.undo_count, CommandHistory.redo_count,
            List.length_dropLast, List.length_append, List.length_cons,
            List.length_nil]
           omega)

theorem redo_preserves_inv (N : Nat) (hN : 1 ≤ N)
    (h : CommandHistory) (b : Board) (h' : CommandHistory) (b' : Board)
    (hinv : historyInv N h)
    (hstep : (h.redo b).stateOf? = some (h', b')) :
    historyInv N h' := by
  obtain ⟨hmax, hu, hsum⟩ := hinv
  have hu2 : h.undo_stack.length ≤ N := hu
  have hsum2 : h.undo_stack.length + h.redo_stack.length ≤ N := hsum
  unfold CommandHistory.redo at hstep
  cases hlast : h.redo_stack.getLast? with
  | none =>
    rw [hlast] at hstep
    dsimp only [StepOutcome.stateOf?] at hstep
    injection hstep with hpair
    have hh : h' = h := congrArg Prod.fst hpair.symm
    rw [hh]
    exact ⟨hmax, hu, hsum⟩
  | some cmd =>
    have hpos : 0 < h.redo_stack.length := by
      cases hs2 : h.redo_stack with
      | nil => rw [hs2] at hlast; exact Option.noConfusion hlast
      | cons a t => simp
    rw [hlast] at hstep
    dsimp only at hstep
    cases hout : cmd.execute b with
    | panic =>
      rw [hout] at hstep
      exact Option.noConfusion hstep
    | thrown e s =>
      obtain ⟨cmd0, b0⟩ := s
      rw [hout] at hstep
      dsimp only [StepOutcome.stateOf?] at hstep
      injection hstep with hpair
      have hh : h' = { h with redo_stack := h.redo_stack.dropLast } :=
        congrArg Prod.fst hpair.symm
      rw [hh]
      refine ⟨hmax, ?_, ?_⟩ <;>
        (simp only [CommandHistory.undo_count, CommandHistory.redo_count,
          List.length_dropLast]
         omega)
    | ok r s =>
      obtain ⟨cmd0, b0⟩ := s
      rw [hout] at hstep
      dsimp only at hstep
      by_cases hs : r.isSuccess
      · rw [if_pos hs] at hstep
        dsimp only [StepOutcome.stateOf?] at hstep
        injection hstep with hpair
        have hh :
            h' = { h with
              undo_stack := (if h.undo_stack.length ≥ h.max_history then h.undo_stack.tail else h.undo_stack) ++ [cmd0],
              redo_stack := h.redo_stack.dropLast } :=
          congrArg Prod.fst hpair.symm
        rw [hh]
        by_cases hcap : h.undo_stack.length ≥ h.max_history
        · rw [if_pos hcap]
          refine ⟨hmax, ?_, ?_⟩ <;>
            (simp only [CommandHistory.undo_count, CommandHistory.redo_count,
              List.length_append, List.length_tail, List.length_dropLast,
              List.length_cons, List.length_nil]
             omega)
        · rw [if_neg hcap]
          refine ⟨hmax, ?_, ?_⟩ <;>
            (simp only [CommandHistory.undo_count, CommandHistory.redo_count,
              List.length_append, List.length_dropLast, List.length_cons,
              List.length_nil]
             omega)
      · rw [if_neg hs] at hstep
        dsimp only [StepOutcome.stateOf?] at hstep
        injection hstep with hpair
        have hh : h' = { h with redo_stack := h.redo_stack.dropLast ++ [cmd0] } :=
          congrArg Prod.fst hpair.symm
        rw [hh]
        refine ⟨hmax, ?_, ?_⟩ <;>
          (simp only [CommandHistory.undo_count, CommandHistory.redo_count,
            List.length_dropLast, List.length_append, List.length_cons,
            List.length_nil]
           omega)


theorem runHistory_preserves_inv (N : Nat) (hN : 1 ≤ N) :
    ∀ (ops : List HistoryOp) (s s' : CommandHistory × Board),
      historyInv N s.1 → runHistory ops s = some s' → historyInv N s'.1 := by
  intro ops
  induction ops with
  | nil =>
    intro s s' hinv hrun
    unfold runHistory at hrun
    injection hrun with hrun
    rw [← hrun]
    exact hinv
  | cons op rest ih =>
    intro s s' hinv hrun
    obtain ⟨h, b⟩ := s
    unfold runHistory at hrun
    dsimp only at hrun
    cases op with
    | exec cmd =>
      cases hmid : (h.execute_command cmd b).stateOf? with
      | none => rw [hmid] at hrun; exact Option.noConfusion hrun
      | some mid =>
        rw [hmid] at hrun
        obtain ⟨hm, bm⟩ := mid
        exact ih (hm, bm) s'
          (execute_command_preserves_inv N hN h cmd b hm bm hinv hmid) hrun
    | undoOp =>
      cases hmid : (h.undo b).stateOf? with
      | none => rw [hmid] at hrun; exact Option.noConfusion hrun
      | some mid =>
        rw [hmid] at hrun
        obtain ⟨hm, bm⟩ := mid
        exact ih (hm, bm) s' (undo_preserves_inv N hN h b hm bm hinv hmid) hrun
    | redoOp =>
      cases hmid : (h.redo b).stateOf? with
      | none => rw [hmid] at hrun; exact Option.noConfusion hrun
      | some mid =>
        rw [hmid] at hrun
        obtain ⟨hm, bm⟩ := mid
        exact ih (hm, bm) s' (redo_preserves_inv N hN h b hm bm hinv hmid) hrun

/-- C8 counterexample: with the configured capacity `max_history = 0`, a
single successful `execute_command` leaves `undo_count = 1`, exceeding the
capacity (the eviction happens before the push, so the push overshoots). -/
theorem C8_counterexample :
    ((CommandHistory.with_max_history 0).execute_command c8cexCmd Board.new).stateOf?.map
        (fun s => s.1.undo_count) = some 1 ∧
    (CommandHistory.with_max_history 0).max_history = 0 := by
  exact ⟨rfl, rfl⟩

/-- C8 (amended): for every positive configured capacity `max_history = N ≥ 1`,
any sequence of `execute_command`/`undo`/`redo` calls starting from a fresh
history keeps both stacks within the capacity: `undo_count ≤ N` and
`redo_count ≤ N` (undo's move to the redo stack needs no eviction because
the two stacks together never hold more than `N` commands). With
`max_history = 0` a successful execute overshoots to `undo_count = 1`. -/
theorem C8_amended_capacity_bound :
    ∀ (N : Nat), 1 ≤ N →
      ∀ (ops : List HistoryOp) (b : Board) (h' : CommandHistory) (b' : Board),
        runHistory ops (CommandHistory.with_max_history N, b) = some (h', b') →
        h'.undo_count ≤ N ∧ h'.redo_count ≤ N := by
  intro N hN ops b h' b' hrun
  have hinv0 : historyInv N (CommandHistory.with_max_history N) := by
    refine ⟨rfl, ?_, ?_⟩ <;> simp [CommandHistory.with_max_history,
      CommandHistory.undo_count, CommandHistory.redo_count]
  obtain ⟨_, h1, h2⟩ := runHistory_preserves_inv N hN ops
    (CommandHistory.with_max_history N, b) (h', b') hinv0 hrun
  have h1' : h'.undo_count ≤ N := h1
  have h2' : h'.undo_count + h'.redo_count ≤ N := h2
  exact ⟨h1', by omega⟩

/-- Witness for C8 at a concrete input: one successful execute with
capacity 2. -/
theorem C8_witness :
    ({ undo_stack := [.insert { InsertCardCommand.new 0 0 (Card.new "n" 0) with
          executed := true }],
       redo_stack := [], max_history := 2 } : CommandHistory).undo_count ≤ 2 ∧
    ({ undo_stack := [.insert { InsertCardCommand.new 0 0 (Card.new "n" 0) with
          executed := true }],
       redo_stack := [], max_history := 2 } : CommandHistory).redo_count ≤ 2 := by
  exact C8_amended_capacity_bound 2 (by omega) [.exec c8cexCmd] Board.new
    { undo_stack := [.insert { InsertCardCommand.new 0 0 (Card.new "n" 0) with
        executed := true }],
      redo_stack := [], max_history := 2 }
    { columns := [Column.new "TODO" [Card.new "n" 0], Column.new "Doing" [],
                  Column.new "Done!" []] } rfl

theorem get_card_index_eq (s : CardSelector) (b : Board) (i : Nat) :
    s.get_card_index b i =
      match b.columns[s.selected_column]? with
      | some col => if col.cards.length = 0 then 0 else min i (col.cards.length - 1)
      | none => 0 := by
  unfold CardSelector.get_card_index Board.column
  cases b.columns[s.selected_column]? with
  | none => rfl
  | some col =>
    by_cases h0 : col.cards.length = 0 <;>
      simp [Column.is_empty, Column.size, h0]

/-- C9: on a freshly constructed selector (cursor `(0,0)`, disabled), the
first call to any of the four navigation operations only enables selection
and returns the unmoved cursor `(0,0)`; once enabled, each navigation call
moves the cursor, clamped to the current column/card counts (card index
falling back to 0 on an empty or missing column). -/
theorem C9_selector_first_call_anchors :
    ∀ (b : Board),
      (CardSelector.newSelector.select_next_column b
          = some ({ CardSelector.newSelector with selection_enabled := true }, 0, 0) ∧
       CardSelector.newSelector.select_prev_column b
          = some ({ CardSelector.newSelector with selection_enabled := true }, 0, 0) ∧
       CardSelector.newSelector.select_next_card b
          = some ({ CardSelector.newSelector with selection_enabled := true }, 0, 0) ∧
       CardSelector.newSelector.select_prev_card b
          = some ({ CardSelector.newSelector with selection_enabled := true }, 0, 0)) ∧
      (∀ s : CardSelector, s.selection_enabled = true →
        (s.select_next_card b =
          some (⟨s.selected_column,
            (match b.columns[s.selected_column]? with
             | some col => if col.cards.length = 0 then 0
                           else min (s.selected_card + 1) (col.cards.length - 1)
             | none => 0), true⟩,
            s.selected_column,
            (match b.columns[s.selected_column]? with
             | some col => if col.cards.length = 0 then 0
                           else min (s.selected_card + 1) (col.cards.length - 1)
             | none => 0))) ∧
        (s.select_prev_card b =
          some (⟨s.selected_column,
            (if s.selected_card = 0 then 0 else
              match b.columns[s.selected_column]? with
              | some col => if col.cards.length = 0 then 0
                            else min (s.selected_card - 1) (col.cards.length - 1)
              | none => 0), true⟩,
            s.selected_column,
            (if s.selected_card = 0 then 0 else
              match b.columns[s.selected_column]? with
              | some col => if col.cards.length = 0 then 0
                            else min (s.selected_card - 1) (col.cards.length - 1)
              | none => 0))) ∧
        (0 < b.columns.length →
          s.select_next_column b =
            some (⟨min (s.selected_column + 1) (b.columns.length - 1),
              (match b.columns[min (s.selected_column + 1) (b.columns.length - 1)]? with
               | some col => if col.cards.length = 0 then 0
                             else min s.selected_card (col.cards.length - 1)
               | none => 0), true⟩,
              min (s.selected_column + 1) (b.columns.length - 1),
              (match b.columns[min (s.selected_column + 1) (b.columns.length - 1)]? with
               | some col => if col.cards.length = 0 then 0
                             else min s.selected_card (col.cards.length - 1)
               | none => 0))) ∧
        (0 < b.columns.length →
          s.select_prev_column b =
            some (⟨(if s.selected_column = 0 then 0
                    else min (s.selected_column - 1) (b.columns.length - 1)),
              (match b.columns[(if s.selected_column = 0 then 0
                    else min (s.selected_column - 1) (b.columns.length - 1))]? with
               | some col => if col.cards.length = 0 then 0
                             else min s.selected_card (col.cards.length - 1)
               | none => 0), true⟩,
              (if s.selected_column = 0 then 0
               else min (s.selected_column - 1) (b.columns.length - 1)),
              (match b.columns[(if s.selected_column = 0 then 0
                    else min (s.selected_column - 1) (b.columns.length - 1))]? with
               | some col => if col.cards.length = 0 then 0
                             else min s.selected_card (col.cards.length - 1)
               | none => 0)))) := by
  intro b
  constructor
  · refine ⟨?_, ?_, ?_, ?_⟩ <;> rfl
  · intro s hen
    obtain ⟨sc, scd, se⟩ := s
    dsimp only at hen
    subst se
    refine ⟨?_, ?_, ?_, ?_⟩
    · unfold CardSelector.select_next_card CardSelector.select
      rw [if_pos rfl]
      dsimp only [CardSelector.next_card_index]
      rw [get_card_index_eq]
    · unfold CardSelector.select_prev_card CardSelector.select
      rw [if_pos rfl]
      dsimp only [CardSelector.prev_card_index]
      by_cases h0 : scd = 0
      · rw [if_pos h0, if_pos h0]
      · rw [if_neg h0, if_neg h0, get_card_index_eq]
    · intro hlen
      unfold CardSelector.select_next_column CardSelector.select
      rw [if_pos rfl]
      dsimp only [CardSelector.next_column_index, Board.columns_count]
      rw [if_neg (by omega)]
      dsimp only
      rw [get_card_index_eq]
    · intro hlen
      unfold CardSelector.select_prev_column CardSelector.select
      rw [if_pos rfl]
      dsimp only [CardSelector.prev_column_index, Board.columns_count]
      by_cases h0 : sc = 0
      · rw [if_pos h0]
        dsimp only
        rw [get_card_index_eq]
        rw [if_pos h0]
      · rw [if_neg h0, if_neg (by omega)]
        dsimp only
        rw [get_card_index_eq]
        rw [if_neg h0]

/-- Witness for C9 at a concrete input: an enabled selector at `(0,0)` on a
fresh board (hypothesis `selection_enabled = true` and the positive column
count discharged concretely). -/
theorem C9_witness :
    (⟨0, 0, true⟩ : CardSelector).select_next_card Board.new
        = some (⟨0, 0, true⟩, 0, 0) ∧
    (⟨0, 0, true⟩ : CardSelector).select_next_column Board.new
        = some (⟨1, 0, true⟩, 1, 0) := by
  have h := (C9_selector_first_call_anchors Board.new).2 ⟨0, 0, true⟩ rfl
  exact ⟨h.1, h.2.2.1 (by decide)⟩

theorem stepOutcome_map_eq_ok {σ τ : Type} {f : σ → τ} {o : StepOutcome σ}
    {r : CommandResult} {t : τ} (h : o.map f = .ok r t) :
    ∃ s, o = .ok r s ∧ t = f s := by
  cases o with
  | panic => exact StepOutcome.noConfusion h
  | thrown e s => exact StepOutcome.noConfusion h
  | ok r0 s0 =>
    injection h with h1 h2
    exact ⟨s0, by rw [h1], h2.symm⟩

theorem mark_card_done_fix_unchanged (b : Board) (ci idx : Nat)
    (b' : Board) (nc nidx : Nat)
    (h : b.mark_card_done ci idx = some (b', nc, nidx)) (hc : nc = ci) :
    b' = b := by
  unfold Board.mark_card_done at h
  try dsimp only at h
  split at h
  · exact Option.noConfusion h
  · split at h
    · injection h with h1
      exact (congrArg Prod.fst h1).symm
    · split at h
      · exact Option.noConfusion h
      · split at h
        · injection h with h1
          have := congrArg (fun p => p.2.1) h1
          dsimp at this
          omega
        · split at h
          · exact Option.noConfusion h
          · split at h
            · exact Option.noConfusion h
            · injection h with h1
              have := congrArg (fun p => p.2.1) h1
              dsimp at this
              omega

theorem mark_card_undone_fix_unchanged (b : Board) (ci idx : Nat)
    (b' : Board) (nc nidx : Nat)
    (h : b.mark_card_undone ci idx = some (b', nc, nidx)) (hc : nc = ci) :
    b' = b := by
  unfold Board.mark_card_undone at h
  try dsimp only at h
  split at h
  case isTrue hci =>
    injection h with h1
    exact (congrArg Prod.fst h1).symm
  case isFalse hci =>
    split at h
    · exact Option.noConfusion h
    · split at h
      · injection h with h1
        have := congrArg (fun p => p.2.1) h1
        dsimp at this
        omega
      · split at h
        · exact Option.noConfusion h
        · split at h
          · exact Option.noConfusion h
          · injection h with h1
            have := congrArg (fun p => p.2.1) h1
            dsimp at this
            omega

theorem insert_execute_failure_atomic (c : InsertCardCommand) (b : Board)
    (m : String) (s : InsertCardCommand × Board)
    (h : c.execute b = .ok (.failure m) s) : s.2 = b := by
  unfold InsertCardCommand.execute at h
  try dsimp only at h
  split at h
  · exact StepOutcome.noConfusion h
  · exact StepOutcome.noConfusion h
  · injection h with h1 h2
    exact absurd h1.symm (by simp)

theorem insert_undo_failure_atomic (c : InsertCardCommand) (b : Board)
    (m : String) (s : InsertCardCommand × Board)
    (h : c.undo b = .ok (.failure m) s) : s.2 = b := by
  unfold InsertCardCommand.undo at h
  try dsimp only at h
  split at h
  · injection h with h1 h2
    rw [← h2]
  · split at h
    · exact StepOutcome.noConfusion h
    · injection h with h1 h2
      exact absurd h1.symm (by simp)
    · injection h with h1 h2
      rw [← h2]

theorem remove_execute_failure_atomic (c : RemoveCardCommand) (b : Board)
    (m : String) (s : RemoveCardCommand × Board)
    (h : c.execute b = .ok (.failure m) s) : s.2 = b := by
  unfold RemoveCardCommand.execute at h
  try dsimp only at h
  split at h
  · injection h with h1 h2
    rw [← h2]
  · split at h
    · injection h with h1 h2
      rw [← h2]
    · split at h
      · exact StepOutcome.noConfusion h
      · split at h
        · exact StepOutcome.noConfusion h
        · injection h with h1 h2
          exact absurd h1.symm (by simp)
        · injection h with h1 h2
          rw [← h2]

theorem remove_undo_failure_atomic (c : RemoveCardCommand) (b : Board)
    (m : String) (s : RemoveCardCommand × Board)
    (h : c.undo b = .ok (.failure m) s) : s.2 = b := by
  unfold RemoveCardCommand.undo at h
  try dsimp only at h
  split at h
  · injection h with h1 h2
    rw [← h2]
  · split at h
    · injection h with h1 h2
      rw [← h2]
    · split at h
      · exact StepOutcome.noConfusion h
      · injection h with h1 h2
        exact absurd h1.symm (by simp)
      · injection h with h1 h2
        rw [← h2]

theorem update_execute_failure_atomic (c : UpdateCardCommand) (b : Board)
    (m : String) (s : UpdateCardCommand × Board)
    (h : c.execute b = .ok (.failure m) s) : s.2 = b := by
  unfold UpdateCardCommand.execute at h
  try dsimp only at h
  split at h
  · injection h with h1 h2
    rw [← h2]
  · split at h
    · injection h with h1 h2
      rw [← h2]
    · split at h
      · exact StepOutcome.noConfusion h
      · split at h
        · exact StepOutcome.noConfusion h
        · injection h with h1 h2
          exact absurd h1.symm (by simp)
        · injection h with h1 h2
          rw [← h2]

theorem update_undo_failure_atomic (c : UpdateCardCommand) (b : Board)
    (m : String) (s : UpdateCardCommand × Board)
    (h : c.undo b = .ok (.failure m) s) : s.2 = b := by
  unfold UpdateCardCommand.undo at h
  try dsimp only at h
  split at h
  · injection h with h1 h2
    rw [← h2]
  · split at h
    · injection h with h1 h2
      rw [← h2]
    · split at h
      · exact StepOutcome.noConfusion h
      · injection h with h1 h2
        exact absurd h1.symm (by simp)
      · injection h with h1 h2
        rw [← h2]

theorem change_priority_execute_failure_atomic (c : ChangePriorityCommand)
    (b : Board) (m : String) (s : ChangePriorityCommand × Board)
    (h : c.execute b = .ok (.failure m) s) : s.2 = b := by
  unfold ChangePriorityCommand.execute at h
  try dsimp only at h
  split at h
  · injection h with h1 h2
    rw [← h2]
  · split at h
    · injection h with h1 h2
      rw [← h2]
    · split at h
      · exact StepOutcome.noConfusion h
      · injection h with h1 h2
        exact absurd h1.symm (by simp)

theorem change_priority_undo_failure_atomic (c : ChangePriorityCommand)
    (b : Board) (m : String) (s : ChangePriorityCommand × Board)
    (h : c.undo b = .ok (.failure m) s) : s.2 = b := by
  unfold ChangePriorityCommand.undo at h
  try dsimp only at h
  split at h
  · injection h with h1 h2
    rw [← h2]
  · split at h
    · injection h with h1 h2
      rw [← h2]
    · split at h
      · injection h with h1 h2
        rw [← h2]
      · split at h
        · exact StepOutcome.noConfusion h
        · injection h with h1 h2
          exact absurd h1.symm (by simp)

theorem move_execute_failure_atomic (c : MoveCardCommand) (b : Board)
    (m : String) (s : MoveCardCommand × Board)
    (h : c.execute b = .ok (.failure m) s) : s.2 = b := by
  unfold MoveCardCommand.execute at h
  try dsimp only at h
  split at h
  · injection h with h1 h2
    rw [← h2]
  · split at h
    · injection h with h1 h2
      rw [← h2]
    · split at h
      · exact StepOutcome.noConfusion h
      · exact StepOutcome.noConfusion h
      · split at h
        · exact StepOutcome.noConfusion h
        · exact StepOutcome.noConfusion h
        · injection h with h1 h2
          exact absurd h1.symm (by simp)

theorem move_undo_failure_atomic (c : MoveCardCommand) (b : Board)
    (m : String) (s : MoveCardCommand × Board)
    (h : c.undo b = .ok (.failure m) s) : s.2 = b := by
  unfold MoveCardCommand.undo at h
  try dsimp only at h
  split at h
  · injection h with h1 h2
    rw [← h2]
  · split at h
    · injection h with h1 h2
      rw [← h2]
    · split at h
      · injection h with h1 h2
        rw [← h2]
      · split at h
        · exact StepOutcome.noConfusion h
        · exact StepOutcome.noConfusion h
        · split at h
          · exact StepOutcome.noConfusion h
          · exact StepOutcome.noConfusion h
          · injection h with h1 h2
            exact absurd h1.symm (by simp)

theorem mark_execute_failure_atomic (c : MarkCardCommand) (b : Board)
    (m : String) (s : MarkCardCommand × Board)
    (h : c.execute b = .ok (.failure m) s) : s.2 = b := by
  unfold MarkCardCommand.execute at h
  try dsimp only at h
  split at h
  · injection h with h1 h2
    rw [← h2]
  · split at h
    · injection h with h1 h2
      rw [← h2]
    · split at h
      case h_1 heq => exact StepOutcome.noConfusion h
      case h_2 b' nc nidx heq =>
        split at h
        case isTrue hcond =>
          injection h with h1 h2
          rw [← h2]
          dsimp only
          by_cases hmd : c.mark_done
          · rw [if_pos hmd] at heq
            exact mark_card_done_fix_unchanged b c.column_index c.card_index
              b' nc nidx heq hcond.1
          · rw [if_neg hmd] at heq
            exact mark_card_undone_fix_unchanged b c.column_index c.card_index
              b' nc nidx heq hcond.1
        case isFalse hcond =>
          injection h with h1 h2
          exact absurd h1.symm (by simp)

theorem mark_undo_failure_atomic (c : MarkCardCommand) (b : Board)
    (m : String) (s : MarkCardCommand × Board)
    (hm : m ≠ "Failed to undo mark card operation")
    (h : c.undo b = .ok (.failure m) s) : s.2 = b := by
  unfold MarkCardCommand.undo at h
  try dsimp only at h
  split at h
  · injection h with h1 h2
    rw [← h2]
  · split at h
    · injection h with h1 h2
      rw [← h2]
    · split at h
      · injection h with h1 h2
        rw [← h2]
      · split at h
        · injection h with h1 h2
          rw [← h2]
        · split at h
          · exact StepOutcome.noConfusion h
          · split at h
            · injection h with h1 h2
              injection h1 with h1
              exact absurd h1.symm hm
            · injection h with h1 h2
              exact absurd h1.symm (by simp)

/-- C2 counterexample: `MarkCardCommand::mark_done(0,1)` on the board
`[[X, A], []]` executes successfully; its undo then moves the card back to
index 0 instead of the captured index 1, reports
`Failure("Failed to undo mark card operation")` — and has mutated the
board, so this rejected call is not atomic. -/
theorem C2_counterexample :
    (Cmd.execute c2cexCmd c2cexBoard).resultOf? = some .success ∧
    ((Cmd.execute c2cexCmd c2cexBoard).andThen
        (fun s => Cmd.undo s.1 s.2)).resultOf?
      = some (.failure "Failed to undo mark card operation") ∧
    boardSerializationOf? ((Cmd.execute c2cexCmd c2cexBoard).andThen
        (fun s => Cmd.undo s.1 s.2))
      ≠ boardSerializationOf? (Cmd.execute c2cexCmd c2cexBoard) := by
  refine ⟨rfl, rfl, by decide⟩

/-- C2 (amended): every `Failure` returned by a command's `execute` leaves
the board exactly as it was, and so does every `Failure` returned by
`undo` — except `MarkCardCommand`'s position-mismatch failure
("Failed to undo mark card operation"), which is reported only after the
opposite mark has already mutated the board. -/
theorem C2_amended_failure_atomicity :
    ∀ (cmd : Cmd) (b : Board) (m : String) (cmd' : Cmd) (b' : Board),
      (Cmd.execute cmd b = .ok (.failure m) (cmd', b') → b' = b) ∧
      (Cmd.undo cmd b = .ok (.failure m) (cmd', b') →
        m ≠ "Failed to undo mark card operation" → b' = b) := by
  intro cmd b m cmd' b'
  cases cmd with
  | insert c =>
    constructor
    · intro h
      obtain ⟨s, hs, hpair⟩ := stepOutcome_map_eq_ok h
      rw [show b' = s.2 from congrArg Prod.snd hpair]
      exact insert_execute_failure_atomic c b m s hs
    · intro h _
      obtain ⟨s, hs, hpair⟩ := stepOutcome_map_eq_ok h
      rw [show b' = s.2 from congrArg Prod.snd hpair]
      exact insert_undo_failure_atomic c b m s hs
  | remove c =>
    constructor
    · intro h
      obtain ⟨s, hs, hpair⟩ := stepOutcome_map_eq_ok h
      rw [show b' = s.2 from congrArg Prod.snd hpair]
      exact remove_execute_failure_atomic c b m s hs
    · intro h _
      obtain ⟨s, hs, hpair⟩ := stepOutcome_map_eq_ok h
      rw [show b' = s.2 from congrArg Prod.snd hpair]
      exact remove_undo_failure_atomic c b m s hs
  | update c =>
    constructor
    · intro h
      obtain ⟨s, hs, hpair⟩ := stepOutcome_map_eq_ok h
      rw [show b' = s.2 from congrArg Prod.snd hpair]
      exact update_execute_failure_atomic c b m s hs
    · intro h _
      obtain ⟨s, hs, hpair⟩ := stepOutcome_map_eq_ok h
      rw [show b' = s.2 from congrArg Prod.snd hpair]
      exact update_undo_failure_atomic c b m s hs
  | changePriority c =>
    constructor
    · intro h
      obtain ⟨s, hs, hpair⟩ := stepOutcome_map_eq_ok h
      rw [show b' = s.2 from congrArg Prod.snd hpair]
      exact change_priority_execute_failure_atomic c b m s hs
    · intro h _
      obtain ⟨s, hs, hpair⟩ := stepOutcome_map_eq_ok h
      rw [show b' = s.2 from congrArg Prod.snd hpair]
      exact change_priority_undo_failure_atomic c b m s hs
  | moveCard c =>
    constructor
    · intro h
      obtain ⟨s, hs, hpair⟩ := stepOutcome_map_eq_ok h
      rw [show b' = s.2 from congrArg Prod.snd hpair]
      exact move_execute_failure_atomic c b m s hs
    · intro h _
      obtain ⟨s, hs, hpair⟩ := stepOutcome_map_eq_ok h
      rw [show b' = s.2 from congrArg Prod.snd hpair]
      exact move_undo_failure_atomic c b m s hs
  | markCard c =>
    constructor
    · intro h
      obtain ⟨s, hs, hpair⟩ := stepOutcome_map_eq_ok h
      rw [show b' = s.2 from congrArg Prod.snd hpair]
      exact mark_execute_failure_atomic c b m s hs
    · intro h hm
      obtain ⟨s, hs, hpair⟩ := stepOutcome_map_eq_ok h
      rw [show b' = s.2 from congrArg Prod.snd hpair]
      exact mark_undo_failure_atomic c b m s hm hs

/-- Witness for C2 at a concrete input: a remove command rejected on an
empty fresh board (execute failure) and an insert command's rejected undo,
both leaving the board untouched. -/
theorem C2_witness :
    Board.new = Board.new ∧ Board.new = Board.new := by
  constructor
  · exact (C2_amended_failure_atomicity
      (.remove (RemoveCardCommand.new 0 0)) Board.new
      "Card not found at column 0, index 0"
      (.remove (RemoveCardCommand.new 0 0)) Board.new).1 rfl
  · exact (C2_amended_failure_atomicity
      (.insert (InsertCardCommand.new 0 0 (Card.new "x" 0))) Board.new
      "Command was not executed"
      (.insert (InsertCardCommand.new 0 0 (Card.new "x" 0))) Board.new).2 rfl
      (by decide)

theorem board_card_some_inv (b : Board) (ci idx : Nat) (card : Card)
    (h : b.card ci idx = some card) :
    ∃ hci : ci < b.columns.length, (b.columns[ci]).cards[idx]? = some card := by
  unfold Board.card at h
  split at h
  case h_1 col hcol =>
    obtain ⟨hci, hget⟩ := List.getElem?_eq_some_iff.mp hcol
    unfold Column.card at h
    exact ⟨hci, by rw [hget]; exact h⟩
  case h_2 => exact Option.noConfusion h

theorem insert_round_trip (c : InsertCardCommand) (b : Board)
    (c' : InsertCardCommand) (b' : Board)
    (h : c.execute b = .ok .success (c', b')) :
    c'.undo b' = .ok .success ({ c' with executed := false }, b) := by
  unfold InsertCardCommand.execute at h
  split at h
  · exact StepOutcome.noConfusion h
  · exact StepOutcome.noConfusion h
  case h_3 b1 heq =>
    injection h with h1 h2
    have h2c : ({ c with executed := true } : InsertCardCommand) = c' :=
      congrArg Prod.fst h2
    have h2b : b1 = b' := congrArg Prod.snd h2
    subst h2b
    subst h2c
    unfold Board.insert_card at heq
    split at heq
    case isTrue hci =>
      split at heq
      case h_1 col hcol =>
        injection heq with heq1
        injection heq1 with heq1
        unfold Column.insert_card at hcol
        split at hcol
        case isTrue hidx =>
          injection hcol with hcol
          subst hcol
          subst heq1
          unfold InsertCardCommand.undo
          dsimp only
          rw [if_neg (show ¬ (!true) = true by decide)]
          have hlen : ((b.columns[c.column_index]).cards.insertIdx c.card_index c.card).length
              = (b.columns[c.column_index]).cards.length + 1 :=
            List.length_insertIdx c.card_index _ hidx
          unfold Board.remove_card
          rw [dif_pos (show c.column_index < (b.columns.set c.column_index _).length by
            simpa using hci)]
          simp only [List.getElem_set_self]
          unfold Column.remove_card
          rw [if_neg (by
            simp only [List.isEmpty_iff_length_eq_zero, hlen]
            omega)]
          rw [if_pos (by rw [hlen]; omega)]
          dsimp only
          rw [List.eraseIdx_insertIdx, List.set_set,
            show (⟨(b.columns[c.column_index]).header,
              (b.columns[c.column_index]).cards⟩ : Column) = b.columns[c.column_index]
              from rfl,
            list_set_getElem_self b.columns c.column_index hci]
        case isFalse hidx => exact Option.noConfusion hcol
      case h_2 => exact Option.noConfusion heq
    case isFalse hci =>
      injection heq with heq1
      exact Except.noConfusion heq1

theorem remove_round_trip (c : RemoveCardCommand) (b : Board)
    (c' : RemoveCardCommand) (b' : Board)
    (h : c.execute b = .ok .success (c', b')) :
    c'.undo b' = .ok .success ({ c' with executed := false }, b) := by
  unfold RemoveCardCommand.execute at h
  dsimp only at h
  split at h
  case h_1 r heq =>
    injection h with h1 h2
    subst h1
    unfold check_already_executed at heq
    split at heq
    · injection heq with heq
      exact CommandResult.noConfusion heq
    · exact Option.noConfusion heq
  case h_2 heq =>
    split at h
    case h_1 msg heq2 =>
      injection h with h1
      exact CommandResult.noConfusion h1
    case h_2 hval =>
      split at h
      case h_1 heq3 => exact StepOutcome.noConfusion h
      case h_2 card heq3 =>
        split at h
        case h_1 heq4 => exact StepOutcome.noConfusion h
        case h_3 e heq4 =>
          injection h with h1
          exact CommandResult.noConfusion h1
        case h_2 b1 i1 i2 heq4 =>
          injection h with h1 h2
          have h2c :
              ({ c with card := some card, executed := true } : RemoveCardCommand) = c' :=
            congrArg Prod.fst h2
          have h2b : b1 = b' := congrArg Prod.snd h2
          subst h2b
          subst h2c
          obtain ⟨hci, hget⟩ := board_card_some_inv b c.column_index c.card_index card heq3
          have hlt : c.card_index < (b.columns[c.column_index]).cards.length :=
            (List.getElem?_eq_some_iff.mp hget).1
          have hcv : (b.columns[c.column_index]).cards[c.card_index] = card :=
            (List.getElem?_eq_some_iff.mp hget).2
          unfold Board.remove_card at heq4
          split at heq4
          case isFalse hci2 => exact absurd hci hci2
          case isTrue hci2 =>
            split at heq4
            case h_2 => exact Option.noConfusion heq4
            case h_1 colr idxr heq5 =>
              injection heq4 with heq4
              injection heq4 with heq4
              have hb1 : b1 = { columns := b.columns.set c.column_index colr } :=
                (congrArg Prod.fst heq4).symm
              unfold Column.remove_card at heq5
              split at heq5
              case isTrue hemp =>
                rw [List.isEmpty_iff_length_eq_zero] at hemp
                omega
              case isFalse hemp =>
                dsimp only at heq5
                injection heq5 with heq5
                have hcolr :
                    colr = ⟨(b.columns[c.column_index]).header,
                      (b.columns[c.column_index]).cards.eraseIdx c.card_index⟩ :=
                  (congrArg Prod.fst heq5).symm
                subst hcolr
                subst hb1
                unfold RemoveCardCommand.undo check_not_executed
                try dsimp only
                rw [if_neg (show ¬ (!true) = true by decide)]
                dsimp only
                unfold Board.insert_card
                rw [dif_pos (show c.column_index
                    < (b.columns.set c.column_index _).length by simpa using hci)]
                simp only [List.getElem_set_self]
                unfold Column.insert_card
                rw [if_pos (by
                  rw [List.length_eraseIdx_of_lt hlt]
                  omega)]
                dsimp only
                rw [← hcv, list_insertIdx_getElem_eraseIdx _ _ hlt, List.set_set,
                  show (⟨(b.columns[c.column_index]).header,
                    (b.columns[c.column_index]).cards⟩ : Column)
                      = b.columns[c.column_index] from rfl,
                  list_set_getElem_self b.columns c.column_index hci]

theorem update_round_trip (c : UpdateCardCommand) (b : Board)
    (c' : UpdateCardCommand) (b' : Board)
    (h : c.execute b = .ok .success (c', b')) :
    c'.undo b' = .ok .success ({ c' with executed := false }, b) := by
  unfold UpdateCardCommand.execute at h
  dsimp only at h
  split at h
  case h_1 r heq =>
    injection h with h1 h2
    subst h1
    unfold check_already_executed at heq
    split at heq
    · injection heq with heq
      exact CommandResult.noConfusion heq
    · exact Option.noConfusion heq
  case h_2 heq =>
    split at h
    case h_1 msg heq2 =>
      injection h with h1
      exact CommandResult.noConfusion h1
    case h_2 hval =>
      split at h
      case h_1 heq3 => exact StepOutcome.noConfusion h
      case h_2 old_card heq3 =>
        split at h
        case h_1 heq4 => exact StepOutcome.noConfusion h
        case h_3 e heq4 =>
          injection h with h1
          exact CommandResult.noConfusion h1
        case h_2 b1 heq4 =>
          injection h with h1 h2
          have h2c :
              ({ c with old_card := some old_card, executed := true } : UpdateCardCommand) = c' :=
            congrArg Prod.fst h2
          have h2b : b1 = b' := congrArg Prod.snd h2
          subst h2b
          subst h2c
          obtain ⟨hci, hget⟩ := board_card_some_inv b c.column_index c.card_index old_card heq3
          have hlt : c.card_index < (b.columns[c.column_index]).cards.length :=
            (List.getElem?_eq_some_iff.mp hget).1
          have hcv : (b.columns[c.column_index]).cards[c.card_index] = old_card :=
            (List.getElem?_eq_some_iff.mp hget).2
          unfold Board.update_card at heq4
          split at heq4
          case isFalse hci2 => exact absurd hci hci2
          case isTrue hci2 =>
            split at heq4
            case h_2 => exact Option.noConfusion heq4
            case h_1 colr heq5 =>
              injection heq4 with heq4
              injection heq4 with heq4
              have hb1 : b1 = { columns := b.columns.set c.column_index colr } := heq4.symm
              unfold Column.update_card at heq5
              split at heq5
              case isTrue hemp =>
                rw [List.isEmpty_iff_length_eq_zero] at hemp
                omega
              case isFalse hemp =>
                injection heq5 with heq5
                subst heq5
                subst hb1
                unfold UpdateCardCommand.undo
                try dsimp only
                rw [if_neg (show ¬ (!true) = true by decide)]
                try dsimp only
                unfold Board.update_card
                rw [dif_pos (show c.column_index
                    < (b.columns.set c.column_index _).length by simpa using hci)]
                simp only [List.getElem_set_self]
                unfold Column.update_card
                rw [if_neg (by
                  simp only [List.isEmpty_iff_length_eq_zero, List.length_set]
                  omega)]
                rw [if_pos (by simpa using hlt)]
                dsimp only
                rw [List.set_set c.new_card old_card, ← hcv,
                  list_set_getElem_self (b.columns[c.column_index]).cards c.card_index hlt,
                  List.set_set,
                  show (⟨(b.columns[c.column_index]).header,
                    (b.columns[c.column_index]).cards⟩ : Column)
                      = b.columns[c.column_index] from rfl,
                  list_set_getElem_self b.columns c.column_index hci]

theorem change_priority_round_trip (c : ChangePriorityCommand) (b : Board)
    (c' : ChangePriorityCommand) (b' : Board)
    (h : c.execute b = .ok .success (c', b'))
    (hmoved : c'.card_index ≠ c.card_index) :
    c'.undo b' = .ok .success ({ c' with card_index := c.card_index, executed := false }, b) := by
  unfold ChangePriorityCommand.execute at h
  dsimp only at h
  split at h
  case isTrue =>
    injection h with h1
    exact CommandResult.noConfusion h1
  case isFalse hexec =>
  split at h
  case isTrue =>
    injection h with h1
    exact CommandResult.noConfusion h1
  case isFalse hnone =>
  obtain ⟨card, hcard⟩ : ∃ card, b.card c.column_index c.card_index = some card := by
    cases hc : b.card c.column_index c.card_index with
    | none => rw [hc] at hnone; exact absurd Option.isNone_none hnone
    | some card => exact ⟨card, rfl⟩
  obtain ⟨hci, hget⟩ := board_card_some_inv b c.column_index c.card_index card hcard
  have hlt : c.card_index < (b.columns[c.column_index]).cards.length :=
    (List.getElem?_eq_some_iff.mp hget).1
  split at h
  case h_1 heqm => exact StepOutcome.noConfusion h
  case h_2 b1 i1 nidx heqm =>
  injection h with h1 h2
  have h2c :
      ({ column_index := c.column_index, card_index := nidx, increase := c.increase,
         original_card_index := some c.card_index, executed := true } :
        ChangePriorityCommand) = c' :=
    congrArg Prod.fst h2
  have h2b : b1 = b' := congrArg Prod.snd h2
  subst h2b
  subst h2c
  have hmoved2 : nidx ≠ c.card_index := hmoved
  by_cases hinc : c.increase
  · rw [if_pos hinc] at heqm
    unfold Board.increase_priority at heqm
    rw [dif_pos hci] at heqm
    dsimp only at heqm
    injection heqm with heqm
    have hbb :
        ({ columns := b.columns.set c.column_index ((b.columns[c.column_index]).increase_priority c.card_index).1 } : Board) = b1 :=
      congrArg Prod.fst heqm
    have hn : ((b.columns[c.column_index]).increase_priority c.card_index).2 = nidx :=
      congrArg (fun p => p.2.2) heqm
    by_cases hcond : 0 < c.card_index ∧
        c.card_index < (b.columns[c.column_index]).cards.length
    case neg =>
      rw [show (b.columns[c.column_index]).increase_priority c.card_index
          = (b.columns[c.column_index], c.card_index) by
        unfold Column.increase_priority; rw [if_neg hcond]] at hn
      exact absurd hn.symm hmoved2
    case pos =>
      rw [show (b.columns[c.column_index]).increase_priority c.card_index
          = ({ b.columns[c.column_index] with cards := Column.swapCards (b.columns[c.column_index]).cards c.card_index (c.card_index - 1) }, c.card_index - 1) by
        unfold Column.increase_priority; rw [if_pos hcond]] at hbb hn
      dsimp only at hbb hn
      subst hbb
      subst hn
      have hjlt : c.card_index - 1 < (b.columns[c.column_index]).cards.length := by omega
      have hswlen : (Column.swapCards (b.columns[c.column_index]).cards
          c.card_index (c.card_index - 1)).length
            = (b.columns[c.column_index]).cards.length :=
        swapCards_length _ _ _
      unfold ChangePriorityCommand.undo
      dsimp only
      rw [if_neg (show ¬ (!true) = true by decide)]
      have hval : Board.card
          ({ columns := b.columns.set c.column_index ({ b.columns[c.column_index] with cards := Column.swapCards (b.columns[c.column_index]).cards c.card_index (c.card_index - 1) }) } : Board)
          c.column_index (c.card_index - 1)
          = some ((b.columns[c.column_index]).cards[c.card_index]) := by
        unfold Board.card
        rw [List.getElem?_set_self (by simpa using hci)]
        unfold Column.card
        dsimp only
        rw [swapCards_getElem? _ _ _ _ hlt hjlt, if_pos rfl]
      rw [hval]
      rw [if_neg (by simp)]
      rw [if_pos hinc]
      unfold Board.decrease_priority
      rw [dif_pos (by simpa using hci)]
      simp only [List.getElem_set_self]
      unfold Column.decrease_priority
      rw [if_neg (by
        simp only [List.isEmpty_iff_length_eq_zero, hswlen]
        omega)]
      rw [if_pos (by rw [hswlen]; omega)]
      dsimp only
      rw [show c.card_index - 1 + 1 = c.card_index from by omega]
      rw [swapCards_swapCards _ _ _ hlt hjlt]
      rw [List.set_set,
        show (⟨(b.columns[c.column_index]).header,
          (b.columns[c.column_index]).cards⟩ : Column) = b.columns[c.column_index] from rfl,
        list_set_getElem_self b.columns c.column_index hci]
  · rw [if_neg hinc] at heqm
    unfold Board.decrease_priority at heqm
    rw [dif_pos hci] at heqm
    unfold Column.decrease_priority at heqm
    rw [if_neg (by
      simp only [List.isEmpty_iff_length_eq_zero]
      omega)] at heqm
    by_cases hcond : c.card_index < (b.columns[c.column_index]).cards.length - 1
    case neg =>
      rw [if_neg hcond] at heqm
      dsimp only at heqm
      injection heqm with heqm
      have hn : c.card_index = nidx := congrArg (fun p => p.2.2) heqm
      exact absurd hn.symm hmoved2
    case pos =>
      rw [if_pos hcond] at heqm
      dsimp only at heqm
      injection heqm with heqm
      have hbb :
          ({ columns := b.columns.set c.column_index ({ b.columns[c.column_index] with cards := Column.swapCards (b.columns[c.column_index]).cards c.card_index (c.card_index + 1) }) } : Board) = b1 :=
        congrArg Prod.fst heqm
      have hn : c.card_index + 1 = nidx := congrArg (fun p => p.2.2) heqm
      subst hbb
      subst hn
      have hjlt : c.card_index + 1 < (b.columns[c.column_index]).cards.length := by omega
      have hswlen : (Column.swapCards (b.columns[c.column_index]).cards
          c.card_index (c.card_index + 1)).length
            = (b.columns[c.column_index]).cards.length :=
        swapCards_length _ _ _
      unfold ChangePriorityCommand.undo
      dsimp only
      rw [if_neg (show ¬ (!true) = true by decide)]
      have hval : Board.card
          ({ columns := b.columns.set c.column_index ({ b.columns[c.column_index] with cards := Column.swapCards (b.columns[c.column_index]).cards c.card_index (c.card_index + 1) }) } : Board)
          c.column_index (c.card_index + 1)
          = some ((b.columns[c.column_index]).cards[c.card_index]) := by
        unfold Board.card
        rw [List.getElem?_set_self (by simpa using hci)]
        unfold Column.card
        dsimp only
        rw [swapCards_getElem? _ _ _ _ hlt hjlt, if_pos rfl]
      rw [hval]
      rw [if_neg (by simp)]
      rw [if_neg hinc]
      unfold Board.increase_priority
      rw [dif_pos (by simpa using hci)]
      simp only [List.getElem_set_self]
      unfold Column.increase_priority
      rw [if_pos (by
        constructor
        · omega
        · rw [hswlen]; omega)]
      dsimp only
      rw [show c.card_index + 1 - 1 = c.card_index from by omega]
      rw [swapCards_swapCards _ _ _ hlt hjlt]
      rw [List.set_set,
        show (⟨(b.columns[c.column_index]).header,
          (b.columns[c.column_index]).cards⟩ : Column) = b.columns[c.column_index] from rfl,
        list_set_getElem_self b.columns c.column_index hci]

theorem move_round_trip (c : MoveCardCommand) (b : Board)
    (c' : MoveCardCommand) (b' : Board)
    (h : c.execute b = .ok .success (c', b')) :
    c'.undo b' = .ok .success ({ c' with executed := false }, b) := by
  unfold MoveCardCommand.execute at h
  dsimp only at h
  split at h
  case isTrue =>
    injection h with h1
    exact CommandResult.noConfusion h1
  case isFalse hexec =>
  split at h
  case h_1 heqc =>
    injection h with h1
    exact CommandResult.noConfusion h1
  case h_2 card heqc =>
  split at h
  case h_1 heqr => exact StepOutcome.noConfusion h
  case h_2 e heqr => exact StepOutcome.noConfusion h
  case h_3 b1 j1 j2 heqr =>
  split at h
  case h_1 heqi => exact StepOutcome.noConfusion h
  case h_2 e heqi => exact StepOutcome.noConfusion h
  case h_3 b2 heqi =>
  injection h with h1 h2
  injection h2 with h2c h2b
  subst h2b
  subst h2c
  obtain ⟨hsrc, hget⟩ :=
    board_card_some_inv b c.source_column_index c.source_card_index card heqc
  have hslt : c.source_card_index < (b.columns[c.source_column_index]).cards.length :=
    (List.getElem?_eq_some_iff.mp hget).1
  have hcv : (b.columns[c.source_column_index]).cards[c.source_card_index] = card :=
    (List.getElem?_eq_some_iff.mp hget).2
  unfold Board.remove_card at heqr
  rw [dif_pos hsrc] at heqr
  split at heqr
  case h_2 => exact Option.noConfusion heqr
  case h_1 colr idxr heq5 =>
  injection heqr with heqr
  injection heqr with heqr
  have hb1 : b1 = { columns := b.columns.set c.source_column_index colr } :=
    (congrArg Prod.fst heqr).symm
  unfold Column.remove_card at heq5
  split at heq5
  case isTrue hemp =>
    rw [List.isEmpty_iff_length_eq_zero] at hemp
    omega
  case isFalse hemp =>
  dsimp only at heq5
  injection heq5 with heq5
  have hcolr :
      colr = ⟨(b.columns[c.source_column_index]).header,
        (b.columns[c.source_column_index]).cards.eraseIdx c.source_card_index⟩ :=
    (congrArg Prod.fst heq5).symm
  subst hcolr
  subst hb1
  unfold Board.insert_card at heqi
  split at heqi
  case isFalse htgt2 =>
    injection heqi with heqi
    exact Except.noConfusion heqi
  case isTrue htgt =>
  split at heqi
  case h_2 => exact Option.noConfusion heqi
  case h_1 coli heq6 =>
  injection heqi with heqi
  injection heqi with heqi
  unfold Column.insert_card at heq6
  rw [ite_eq_iff] at heq6
  obtain ⟨hadj, heq6⟩ := heq6.resolve_right (fun hb => Option.noConfusion hb.2)
  try dsimp only at hadj
  injection heq6 with heq6
  subst heq6
  subst heqi
  unfold MoveCardCommand.undo
  dsimp only
  rw [if_neg (show ¬ (!true) = true by decide)]
  unfold Board.remove_card
  rw [dif_pos (by simpa using htgt)]
  simp only [List.getElem_set_self]
  unfold Column.remove_card
  rw [if_neg (by
    simp only [List.isEmpty_iff_length_eq_zero]
    rw [List.length_insertIdx _ _ (by simpa using hadj)]
    omega)]
  rw [if_pos (by
    rw [List.length_insertIdx _ _ (by simpa using hadj)]
    omega)]
  try dsimp only
  rw [List.eraseIdx_insertIdx, List.set_set]
  rw [list_set_getElem_self]
  try dsimp only
  unfold Board.insert_card
  rw [dif_pos (by simpa using hsrc)]
  simp only [List.getElem_set_self]
  unfold Column.insert_card
  rw [if_pos (by
    rw [List.length_eraseIdx_of_lt hslt]
    omega)]
  try dsimp only
  rw [← hcv, list_insertIdx_getElem_eraseIdx _ _ hslt, List.set_set,
    show (⟨(b.columns[c.source_column_index]).header,
      (b.columns[c.source_column_index]).cards⟩ : Column)
        = b.columns[c.source_column_index] from rfl,
    list_set_getElem_self b.columns c.source_column_index hsrc]

/-- Witness for C7 at a concrete input: removing index 0 from a two-card
column, and removing from an empty column. -/
theorem C7_witness :
    (Column.new "E" []).remove_card 3 = some (Column.new "E" [], 0) ∧
    (Column.new "T" [Card.new "a" 0, Card.new "b" 0]).remove_card 0 =
      some (Column.new "T" [Card.new "b" 0], 0) := by
  have h1 := (C7_remove_card_cursor_contract (Column.new "E" []) 3).1 rfl
  have h2 := (C7_remove_card_cursor_contract
    (Column.new "T" [Card.new "a" 0, Card.new "b" 0]) 0).2 (by decide)
  exact ⟨h1, by decide⟩



theorem list_set_set_getElem_ne {α : Type} (l : List α) (i j : Nat) (a : α)
    (hij : i ≠ j) (hj : j < l.length) :
    (l.set i a).set j (l[j]) = l.set i a := by
  apply List.ext_getElem
  · simp
  · intro n hn1 hn2
    rw [List.getElem_set]
    split
    · rename_i hjn
      subst hjn
      exact (List.getElem_set_ne hij hn2).symm
    · rfl

theorem mark_round_trip (c : MarkCardCommand) (b : Board)
    (c' : MarkCardCommand) (b' : Board)
    (hk : c.card_index = 0)
    (h : c.execute b = .ok .success (c', b')) :
    c'.undo b' = .ok .success
      ({ c' with column_index := c.column_index, card_index := c.card_index,
                 executed := false }, b) := by
  unfold MarkCardCommand.execute at h
  dsimp only at h
  split at h
  case h_1 r heq =>
    injection h with h1 h2
    subst h1
    unfold check_already_executed at heq
    split at heq
    · injection heq with heq
      exact CommandResult.noConfusion heq
    · exact Option.noConfusion heq
  case h_2 heq =>
  split at h
  case h_1 msg heq2 =>
    injection h with h1
    exact CommandResult.noConfusion h1
  case h_2 hval =>
  obtain ⟨card, hc⟩ : ∃ card, b.card c.column_index c.card_index = some card := by
    cases hcc : b.card c.column_index c.card_index with
    | none =>
      exfalso
      apply hval ("Card not found at column " ++ toString c.column_index ++
        ", index " ++ toString c.card_index)
      unfold validate_card_exists
      rw [hcc]
      rfl
    | some cd => exact ⟨cd, rfl⟩
  obtain ⟨hci, hget⟩ := board_card_some_inv b c.column_index c.card_index card hc
  have hklt : c.card_index < (b.columns[c.column_index]).cards.length :=
    (List.getElem?_eq_some_iff.mp hget).1
  obtain ⟨tl, htl⟩ : ∃ tl, (b.columns[c.column_index]).cards = card :: tl := by
    cases hcs : (b.columns[c.column_index]).cards with
    | nil =>
      rw [hcs] at hklt
      simp at hklt
    | cons a tl =>
      have hg2 := hget
      rw [hk, hcs] at hg2
      simp at hg2
      subst hg2
      exact ⟨tl, rfl⟩
  have herase : (b.columns[c.column_index]).cards.eraseIdx c.card_index = tl := by
    rw [hk, htl, List.eraseIdx_cons_zero]
  cases hmd : c.mark_done with
  | true =>
    rw [hmd, if_pos rfl] at h
    split at h
    case h_1 heq4 => exact StepOutcome.noConfusion h
    case h_2 b1 nc nk heq4 =>
    split at h
    case isTrue hpos =>
      injection h with h1
      exact CommandResult.noConfusion h1
    case isFalse hpos =>
    injection h with h1 h2
    have h2c : MarkCardCommand.mk nc nk true (some c.column_index)
        (some c.card_index) true = c' :=
      congrArg Prod.fst h2
    have h2b : b1 = b' := congrArg Prod.snd h2
    subst h2b
    subst h2c
    unfold Board.mark_card_done at heq4
    rw [if_neg (show ¬ b.columns.length = 0 by omega)] at heq4
    split at heq4
    case isTrue hbd =>
      injection heq4 with heq4
      exact absurd ⟨(congrArg (fun p => (p.2.1 : Nat)) heq4).symm,
        (congrArg (fun p => (p.2.2 : Nat)) heq4).symm⟩ hpos
    case isFalse hbd =>
    rw [List.getElem?_eq_getElem hci] at heq4
    dsimp only at heq4
    unfold Column.take_card at heq4
    rw [if_pos hklt, hget] at heq4
    dsimp only at heq4
    rw [herase] at heq4
    rw [List.getElem?_set_ne (show c.column_index ≠ c.column_index + 1 by omega)] at heq4
    rw [List.getElem?_eq_getElem (show c.column_index + 1 < b.columns.length by omega)] at heq4
    dsimp only at heq4
    unfold Column.insert_card at heq4
    rw [if_pos (Nat.zero_le _)] at heq4
    dsimp only at heq4
    rw [List.insertIdx_zero] at heq4
    injection heq4 with heq4
    have hb1 : b1 = Board.mk ((b.columns.set c.column_index
          ⟨(b.columns[c.column_index]).header, tl⟩).set (c.column_index + 1)
          ⟨(b.columns[c.column_index + 1]).header,
            card :: (b.columns[c.column_index + 1]).cards⟩) :=
      (congrArg Prod.fst heq4).symm
    have hnc : nc = c.column_index + 1 := (congrArg (fun p => (p.2.1 : Nat)) heq4).symm
    have hnk : nk = 0 := (congrArg (fun p => (p.2.2 : Nat)) heq4).symm
    subst hb1
    subst hnc
    subst hnk
    unfold MarkCardCommand.undo check_not_executed
    dsimp only
    rw [if_neg (show ¬ (!true) = true by decide)]
    dsimp only
    unfold validate_card_exists_for_undo Board.card
    rw [List.getElem?_set_self (by simp only [List.length_set]; omega)]
    dsimp only
    unfold Column.card
    dsimp only
    rw [List.getElem?_cons_zero]
    rw [if_neg (by simp)]
    dsimp only
    rw [if_pos rfl]
    unfold Board.mark_card_undone
    rw [if_neg (show ¬ (c.column_index + 1 = 0) by omega)]
    rw [List.getElem?_set_self (by simp only [List.length_set]; omega)]
    dsimp only
    unfold Column.take_card
    rw [if_pos (by simp)]
    dsimp only
    rw [List.getElem?_cons_zero]
    simp only [List.eraseIdx_cons_zero]
    rw [show (⟨(b.columns[c.column_index + 1]).header,
        (b.columns[c.column_index + 1]).cards⟩ : Column)
        = b.columns[c.column_index + 1] from rfl]
    rw [List.set_set]
    rw [list_set_set_getElem_ne b.columns c.column_index (c.column_index + 1) _
      (by omega) (by omega)]
    simp only [Nat.add_sub_cancel]
    rw [List.getElem?_set_self (by simpa using hci)]
    dsimp only
    unfold Column.insert_card
    rw [if_pos (Nat.zero_le _)]
    dsimp only
    rw [List.insertIdx_zero]
    rw [show (card :: tl) = (b.columns[c.column_index]).cards from htl.symm]
    rw [show (⟨(b.columns[c.column_index]).header,
        (b.columns[c.column_index]).cards⟩ : Column)
        = b.columns[c.column_index] from rfl]
    rw [List.set_set, list_set_getElem_self b.columns c.column_index hci]
    try dsimp only
    rw [if_neg (by simp [hk])]
  | false =>
    rw [hmd, if_neg (by decide)] at h
    split at h
    case h_1 heq4 => exact StepOutcome.noConfusion h
    case h_2 b1 nc nk heq4 =>
    split at h
    case isTrue hpos =>
      injection h with h1
      exact CommandResult.noConfusion h1
    case isFalse hpos =>
    injection h with h1 h2
    have h2c : MarkCardCommand.mk nc nk false (some c.column_index)
        (some c.card_index) true = c' :=
      congrArg Prod.fst h2
    have h2b : b1 = b' := congrArg Prod.snd h2
    subst h2b
    subst h2c
    unfold Board.mark_card_undone at heq4
    split at heq4
    case isTrue hbd =>
      injection heq4 with heq4
      exact absurd ⟨(congrArg (fun p => (p.2.1 : Nat)) heq4).symm,
        (congrArg (fun p => (p.2.2 : Nat)) heq4).symm⟩ hpos
    case isFalse hbd =>
    rw [List.getElem?_eq_getElem hci] at heq4
    dsimp only at heq4
    unfold Column.take_card at heq4
    rw [if_pos hklt, hget] at heq4
    dsimp only at heq4
    rw [herase] at heq4
    rw [List.getElem?_set_ne (show c.column_index ≠ c.column_index - 1 by omega)] at heq4
    rw [List.getElem?_eq_getElem (show c.column_index - 1 < b.columns.length by omega)] at heq4
    dsimp only at heq4
    unfold Column.insert_card at heq4
    rw [if_pos (Nat.zero_le _)] at heq4
    dsimp only at heq4
    rw [List.insertIdx_zero] at heq4
    injection heq4 with heq4
    have hb1 : b1 = Board.mk ((b.columns.set c.column_index
          ⟨(b.columns[c.column_index]).header, tl⟩).set (c.column_index - 1)
          ⟨(b.columns[c.column_index - 1]).header,
            card :: (b.columns[c.column_index - 1]).cards⟩) :=
      (congrArg Prod.fst heq4).symm
    have hnc : nc = c.column_index - 1 := (congrArg (fun p => (p.2.1 : Nat)) heq4).symm
    have hnk : nk = 0 := (congrArg (fun p => (p.2.2 : Nat)) heq4).symm
    subst hb1
    subst hnc
    subst hnk
    unfold MarkCardCommand.undo check_not_executed
    dsimp only
    rw [if_neg (show ¬ (!true) = true by decide)]
    dsimp only
    unfold validate_card_exists_for_undo Board.card
    rw [List.getElem?_set_self (by simp only [List.length_set]; omega)]
    dsimp only
    unfold Column.card
    dsimp only
    rw [List.getElem?_cons_zero]
    rw [if_neg (by simp)]
    dsimp only
    rw [if_neg (by decide)]
    unfold Board.mark_card_done
    rw [if_neg (by simp only [List.length_set]; omega)]
    rw [if_neg (by simp only [List.length_set]; omega)]
    rw [List.getElem?_set_self (by simp only [List.length_set]; omega)]
    dsimp only
    unfold Column.take_card
    rw [if_pos (by simp)]
    dsimp only
    rw [List.getElem?_cons_zero]
    simp only [List.eraseIdx_cons_zero]
    rw [show (⟨(b.columns[c.column_index - 1]).header,
        (b.columns[c.column_index - 1]).cards⟩ : Column)
        = b.columns[c.column_index - 1] from rfl]
    rw [List.set_set]
    rw [list_set_set_getElem_ne b.columns c.column_index (c.column_index - 1) _
      (by omega) (by omega)]
    rw [show c.column_index - 1 + 1 = c.column_index by omega]
    rw [List.getElem?_set_self (by simpa using hci)]
    dsimp only
    unfold Column.insert_card
    rw [if_pos (Nat.zero_le _)]
    dsimp only
    rw [List.insertIdx_zero]
    rw [show (card :: tl) = (b.columns[c.column_index]).cards from htl.symm]
    rw [show (⟨(b.columns[c.column_index]).header,
        (b.columns[c.column_index]).cards⟩ : Column)
        = b.columns[c.column_index] from rfl]
    rw [List.set_set, list_set_getElem_self b.columns c.column_index hci]
    try dsimp only
    rw [if_neg (by simp [hk])]


/-- C1 counterexample: the boundary `ChangePriorityCommand::increase(0, 0)` on
the one-column board `[A, B]` executes with `Success` as a no-op, but its undo
swaps the two cards, so the post-undo serialization differs from the
pre-execute serialization. -/
theorem C1_counterexample :
    (Cmd.execute c1cexCmd c1cexBoard).resultOf? = some .success ∧
    boardSerializationOf? ((Cmd.execute c1cexCmd c1cexBoard).andThen
      (fun s => Cmd.undo s.1 s.2)) ≠ some c1cexBoard.serialize :=
  ⟨rfl, by decide⟩

/-- C1 (amended): when `execute` returns `Success`, undoing the executed
command restores the exact pre-execute board (hence identical serialized
output) for Insert, Remove, Update and MoveCard commands unconditionally;
for a ChangePriority command it additionally requires that the execute
actually moved the card (the returned index differs from the requested one),
and for a MarkCard command that the marked card sat at index 0 of its
column. -/
theorem C1_amended_round_trip (cmd : Cmd) (b : Board) (cmd' : Cmd) (b' : Board)
    (h : Cmd.execute cmd b = .ok .success (cmd', b'))
    (hcp : ∀ pc pc', cmd = .changePriority pc → cmd' = .changePriority pc' →
      pc'.card_index ≠ pc.card_index)
    (hmk : ∀ mc, cmd = .markCard mc → mc.card_index = 0) :
    ∃ cmd'', Cmd.undo cmd' b' = .ok .success (cmd'', b) ∧
      boardSerializationOf? (Cmd.undo cmd' b') = some b.serialize := by
  cases cmd with
  | insert c =>
    simp only [Cmd.execute] at h
    cases hx : c.execute b with
    | panic => rw [hx] at h; exact StepOutcome.noConfusion h
    | thrown e s =>
      rw [hx] at h
      simp only [StepOutcome.map] at h
      exact StepOutcome.noConfusion h
    | ok r s =>
      rw [hx] at h
      simp only [StepOutcome.map] at h
      injection h with h1 h2
      subst h1
      have hc' : Cmd.insert s.1 = cmd' := congrArg Prod.fst h2
      have hb' : s.2 = b' := congrArg Prod.snd h2
      subst hc'
      subst hb'
      have hrt := insert_round_trip c b s.1 s.2 (by rw [hx])
      have hu : Cmd.undo (.insert s.1) s.2 =
          .ok .success (.insert { s.1 with executed := false }, b) := by
        simp only [Cmd.undo]
        rw [hrt]
        rfl
      exact ⟨_, hu, by rw [hu]; rfl⟩
  | remove c =>
    simp only [Cmd.execute] at h
    cases hx : c.execute b with
    | panic => rw [hx] at h; exact StepOutcome.noConfusion h
    | thrown e s =>
      rw [hx] at h
      simp only [StepOutcome.map] at h
      exact StepOutcome.noConfusion h
    | ok r s =>
      rw [hx] at h
      simp only [StepOutcome.map] at h
      injection h with h1 h2
      subst h1
      have hc' : Cmd.remove s.1 = cmd' := congrArg Prod.fst h2
      have hb' : s.2 = b' := congrArg Prod.snd h2
      subst hc'
      subst hb'
      have hrt := remove_round_trip c b s.1 s.2 (by rw [hx])
      have hu : Cmd.undo (.remove s.1) s.2 =
          .ok .success (.remove { s.1 with executed := false }, b) := by
        simp only [Cmd.undo]
        rw [hrt]
        rfl
      exact ⟨_, hu, by rw [hu]; rfl⟩
  | update c =>
    simp only [Cmd.execute] at h
    cases hx : c.execute b with
    | panic => rw [hx] at h; exact StepOutcome.noConfusion h
    | thrown e s =>
      rw [hx] at h
      simp only [StepOutcome.map] at h
      exact StepOutcome.noConfusion h
    | ok r s =>
      rw [hx] at h
      simp only [StepOutcome.map] at h
      injection h with h1 h2
      subst h1
      have hc' : Cmd.update s.1 = cmd' := congrArg Prod.fst h2
      have hb' : s.2 = b' := congrArg Prod.snd h2
      subst hc'
      subst hb'
      have hrt := update_round_trip c b s.1 s.2 (by rw [hx])
      have hu : Cmd.undo (.update s.1) s.2 =
          .ok .success (.update { s.1 with executed := false }, b) := by
        simp only [Cmd.undo]
        rw [hrt]
        rfl
      exact ⟨_, hu, by rw [hu]; rfl⟩
  | changePriority c =>
    simp only [Cmd.execute] at h
    cases hx : c.execute b with
    | panic => rw [hx] at h; exact StepOutcome.noConfusion h
    | thrown e s =>
      rw [hx] at h
      simp only [StepOutcome.map] at h
      exact StepOutcome.noConfusion h
    | ok r s =>
      rw [hx] at h
      simp only [StepOutcome.map] at h
      injection h with h1 h2
      subst h1
      have hc' : Cmd.changePriority s.1 = cmd' := congrArg Prod.fst h2
      have hb' : s.2 = b' := congrArg Prod.snd h2
      subst hc'
      subst hb'
      have hrt := change_priority_round_trip c b s.1 s.2 (by rw [hx])
        (hcp c s.1 rfl rfl)
      have hu : Cmd.undo (.changePriority s.1) s.2 =
          .ok .success
            (.changePriority { s.1 with card_index := c.card_index, executed := false }, b) := by
        simp only [Cmd.undo]
        rw [hrt]
        rfl
      exact ⟨_, hu, by rw [hu]; rfl⟩
  | moveCard c =>
    simp only [Cmd.execute] at h
    cases hx : c.execute b with
    | panic => rw [hx] at h; exact StepOutcome.noConfusion h
    | thrown e s =>
      rw [hx] at h
      simp only [StepOutcome.map] at h
      exact StepOutcome.noConfusion h
    | ok r s =>
      rw [hx] at h
      simp only [StepOutcome.map] at h
      injection h with h1 h2
      subst h1
      have hc' : Cmd.moveCard s.1 = cmd' := congrArg Prod.fst h2
      have hb' : s.2 = b' := congrArg Prod.snd h2
      subst hc'
      subst hb'
      have hrt := move_round_trip c b s.1 s.2 (by rw [hx])
      have hu : Cmd.undo (.moveCard s.1) s.2 =
          .ok .success (.moveCard { s.1 with executed := false }, b) := by
        simp only [Cmd.undo]
        rw [hrt]
        rfl
      exact ⟨_, hu, by rw [hu]; rfl⟩
  | markCard c =>
    simp only [Cmd.execute] at h
    cases hx : c.execute b with
    | panic => rw [hx] at h; exact StepOutcome.noConfusion h
    | thrown e s =>
      rw [hx] at h
      simp only [StepOutcome.map] at h
      exact StepOutcome.noConfusion h
    | ok r s =>
      rw [hx] at h
      simp only [StepOutcome.map] at h
      injection h with h1 h2
      subst h1
      have hc' : Cmd.markCard s.1 = cmd' := congrArg Prod.fst h2
      have hb' : s.2 = b' := congrArg Prod.snd h2
      subst hc'
      subst hb'
      have hrt := mark_round_trip c b s.1 s.2 (hmk c rfl) (by rw [hx])
      have hu : Cmd.undo (.markCard s.1) s.2 =
          .ok .success
            (.markCard { s.1 with column_index := c.column_index, card_index := c.card_index, executed := false }, b) := by
        simp only [Cmd.undo]
        rw [hrt]
        rfl
      exact ⟨_, hu, by rw [hu]; rfl⟩

/-- Witness for the amended C1 at a concrete input: a fresh insert into the
default three-column board, executed and then undone, lands back on the
default board. -/
theorem C1_witness :
    ∃ cmd'', Cmd.undo c1wCmd' c1wBoard' = .ok .success (cmd'', Board.new) ∧
      boardSerializationOf? (Cmd.undo c1wCmd' c1wBoard') = some Board.new.serialize :=
  C1_amended_round_trip c1wCmd Board.new c1wCmd' c1wBoard' rfl
    (fun pc pc' hh _ => Cmd.noConfusion hh) (fun mc hh => Cmd.noConfusion hh)

end Rustyban
